import Mathlib

set_option maxHeartbeats 1000000
set_option maxRecDepth 100000

/-!
Verification of the codegen-diff orchestration pipeline of smithy-rs
(`tools/ci-scripts/codegen-diff/diff_lib.py` and its callers
`codegen-diff-revisions.py` and `semver-checks.py`).

The scripts are shallowly embedded: every external command invocation is
recorded as an event, and the exit statuses / captured output of external
commands are supplied by an oracle (`Env`).  Fallible script execution is
modelled by a writer-style result type `Res` that carries the list of
emitted events together with an `Outcome` (normal return, `sys.exit`, or a
raised exception).  Pure string manipulations (`str.split`, `in`,
f-strings, `' '.join`) are embedded as executable Lean functions on
`String` / `List Char`.

The file has two parts: all definitions first, then all theorems.
-/

namespace CodegenDiff

/-- Python's `s.split(sep)` for a single-character separator, acting on the
character-list representation of a string: `"a#b".split('#') = ["a","b"]`,
`"".split('#') = [""]`, `"a##b".split('#') = ["a","","b"]`. -/
def pySplit (sep : Char) : List Char → List (List Char)
  | [] => [[]]
  | c :: rest =>
    if c = sep then [] :: pySplit sep rest
    else
      match pySplit sep rest with
      | [] => [[c]]
      | h :: t => (c :: h) :: t

/-- The segment of `l` strictly after the last occurrence of `sep`
(`l` itself when `sep` does not occur).  This is the meaning of
Python's `s.split(sep)[-1]`. -/
def afterLast (sep : Char) : List Char → List Char
  | [] => []
  | c :: rest =>
    if sep ∈ rest then afterLast sep rest
    else if c = sep then rest else c :: rest

/-- Python's `sep.join(parts)`. -/
def strJoin (sep : String) : List String → String
  | [] => ""
  | [x] => x
  | x :: xs => x ++ sep ++ strJoin sep xs

/-- Boolean test that `p` is a leading segment of `s`; used to classify the
command strings recorded in an execution trace. -/
def hasPre (p s : String) : Bool := p.data.isPrefixOf s.data

/-- The whitespace-separated tokens of a command string (shell word
splitting for the quote-free commands at hand; empty tokens arising from
repeated spaces are discarded, as `shlex.split` collapses whitespace
runs). -/
def shlexTokens (s : String) : List (List Char) :=
  (pySplit ' ' s.data).filter (fun w => !w.isEmpty)

/-- Number of (possibly overlapping) occurrence positions of a non-empty
pattern `p` in `l`; used to state "contains exactly two CDN links". -/
def countSub (p : List Char) : List Char → Nat
  | [] => 0
  | c :: rest => (if p.isPrefixOf (c :: rest) then 1 else 0) + countSub p rest

/-- Split a character list at every literal backslash-n two-character escape
sequence — the separator `make_diffs` writes between report lines. -/
def splitEsc : List Char → List (List Char)
  | [] => [[]]
  | [c] => [[c]]
  | c :: d :: rest =>
    if c = '\\' ∧ d = 'n' then [] :: splitEsc rest
    else (c :: (splitEsc (d :: rest)).headD []) :: (splitEsc (d :: rest)).tail

/-- Join character-list pieces with the literal backslash-n escape sequence
after every piece — the shape in which `make_diffs` assembles its report. -/
def escJoin (pieces : List (List Char)) : List Char :=
  pieces.foldr (fun p acc => p ++ '\\' :: 'n' :: acc) []

/-- Events recorded while a script runs: external commands handed to
`run` / `get_cmd_output` / `get_cmd_status`, `eprint` diagnostics, and file
writes.  (The `running ...` diagnostic that `run` and `get_cmd_output`
themselves print for every command is represented by the `cmd` event.) -/
inductive Ev where
  | cmd (s : String)
  | log (s : String)
  | writeFile (path text : String)
deriving DecidableEq

/-- How a script run ends: normal return, `sys.exit(code)`, or a raised
exception (carrying the failing command or message). -/
inductive Outcome (α : Type) where
  | ok (a : α)
  | exited (code : Nat)
  | raised (msg : String)
deriving DecidableEq

/-- A script computation: the events it emitted plus its outcome. -/
structure Res (α : Type) where
  trace : List Ev
  result : Outcome α

/-- Sequencing of script computations: aborts (either `sys.exit` or an
uncaught exception) skip the rest of the script but keep the events emitted
so far. -/
def Res.bind {α β : Type} (r : Res α) (f : α → Res β) : Res β :=
  match r.result with
  | .ok a =>
    let s := f a
    ⟨r.trace ++ s.trace, s.result⟩
  | .exited c => ⟨r.trace, .exited c⟩
  | .raised m => ⟨r.trace, .raised m⟩

/-- Oracle for the external world: the two environment variables the scripts
read, exit statuses / captured stdout / captured stderr of external commands
(keyed by the optional working-directory override and the command line), and
the directory listing `os.listdir` returns in the semver-checks loop. -/
structure Env where
  docker : Option String
  skipGenVar : Option String
  status : Option String → String → Nat
  out : Option String → String → String
  err : Option String → String → String
  listing : List String

/-- Run a sequence of events: a command aborts the remainder at the first
non-zero exit status (the `check=True` behaviour of `run` and
`get_cmd_output`), diagnostics and file writes always succeed. -/
def runSeq (env : Env) : List Ev → Res Unit
  | [] => ⟨[], .ok ()⟩
  | Ev.cmd c :: es =>
    if env.status none c = 0 then
      let r := runSeq env es
      ⟨Ev.cmd c :: r.trace, r.result⟩
    else ⟨[Ev.cmd c], .raised c⟩
  | Ev.log s :: es =>
    let r := runSeq env es
    ⟨Ev.log s :: r.trace, r.result⟩
  | Ev.writeFile p t :: es =>
    let r := runSeq env es
    ⟨Ev.writeFile p t :: r.trace, r.result⟩

/-- `get_cmd_status(command)`: run and return the exit status (never
raises). -/
def getCmdStatus (env : Env) (c : String) : Res Nat :=
  ⟨[Ev.cmd c], .ok (env.status none c)⟩

/-- `get_cmd_output(command, cwd=..., check=True)`: run, capture output,
raise on a non-zero exit status. -/
def getCmdOutput (env : Env) (cwd : Option String) (c : String) :
    Res (Nat × String × String) :=
  if env.status cwd c = 0 then ⟨[Ev.cmd c], .ok (0, env.out cwd c, env.err cwd c)⟩
  else ⟨[Ev.cmd c], .raised c⟩

/-- `get_cmd_output(command, cwd=..., check=False)`: run and return
`(status, stdout, stderr)` without raising. -/
def getCmdOutputNoCheck (env : Env) (cwd : Option String) (c : String) :
    Res (Nat × String × String) :=
  ⟨[Ev.cmd c], .ok (env.status cwd c, env.out cwd c, env.err cwd c)⟩

/-! Module-level constants of `diff_lib.py`. -/

def HEAD_BRANCH_NAME : String := "__tmp-localonly-head"

def BASE_BRANCH_NAME : String := "__tmp-localonly-base"

def OUTPUT_PATH : String := "tmp-codegen-diff"

def COMMIT_AUTHOR_NAME : String := "GitHub Action (generated code preview)"

def COMMIT_AUTHOR_EMAIL : String := "generated-code-action@github.com"

def CDN_URL : String := "https://d2luzm2xt3nokh.cloudfront.net"

def target_codegen_client : String := "codegen-client-test"

def target_codegen_server : String := "codegen-server-test"

def target_codegen_server_python : String := "codegen-server-test:codegen-server-test-python"

def target_codegen_server_typescript : String := "codegen-server-test:codegen-server-test-typescript"

def target_aws_sdk : String := "aws:sdk"

/-- `running_in_docker_build()`: the `SMITHY_RS_DOCKER_BUILD_IMAGE`
environment variable equals `"1"`. -/
def running_in_docker_build (env : Env) : Bool := env.docker == some "1"

/-- The fixed part of the bot commit command, before the revision sha
(`user.name` is configured twice, verbatim as in the source f-string). -/
def commitPre : String :=
  "git -c \x27user.name=GitHub Action (generated code preview)\x27 -c \x27user.name=" ++
  COMMIT_AUTHOR_NAME ++ "\x27 -c \x27user.email=" ++ COMMIT_AUTHOR_EMAIL ++
  "\x27 commit --no-verify -m \x27Generated code for "

/-- The commit command issued by `run_git_commit_as_github_action`. -/
def commitCmd (revision_sha : String) : String :=
  commitPre ++ (revision_sha ++ "\x27 --allow-empty")

/-- Python's `targets or [default, ...]`: both `None` and an empty list are
falsy and select the default list. -/
def pyOrList (t : Option (List String)) (d : List String) : List String :=
  match t with
  | none => d
  | some l => if l.isEmpty then d else l

/-- The default target list of `generate_and_commit_generated_code`. -/
def defaultTargets : List String :=
  [target_codegen_client, target_codegen_server, target_aws_sdk,
   target_codegen_server_python, target_codegen_server_typescript]

def cleanTasksCmd (targets : List String) : String :=
  "./gradlew --rerun-tasks " ++ strJoin " " (targets.map (fun t => t ++ ":clean"))

def assembleTasksCmd (targets : List String) : String :=
  "./gradlew --rerun-tasks " ++ strJoin " " (targets.map (fun t => t ++ ":assemble"))

/-- The one stub sub-build the code triggers:
`./gradlew --rerun-tasks codegen-server-test:codegen-server-test-python:stubs`. -/
def stubsCmd : String :=
  "./gradlew --rerun-tasks " ++ target_codegen_server_python ++ ":stubs"

/-- The typescript analogue of `stubsCmd`; the code never issues it (used to
state that fact). -/
def tsStubsCmd : String :=
  "./gradlew --rerun-tasks " ++ target_codegen_server_typescript ++ ":stubs"

def mvSdkCmd : String := "mv aws/sdk/build/aws-sdk " ++ OUTPUT_PATH ++ "/"

def mvTargetCmd (t : String) : String :=
  "mv " ++ t ++ "/build/smithyprojections/" ++ t ++ " " ++ OUTPUT_PATH ++ "/"

def mvPythonCmd : String :=
  "mv " ++ target_codegen_server ++ "/codegen-server-test-python/build/smithyprojections/" ++
  target_codegen_server ++ "-python " ++ OUTPUT_PATH ++ "/"

def mvTypescriptCmd : String :=
  "mv " ++ target_codegen_server ++ "/codegen-server-test-typescript/build/smithyprojections/" ++
  target_codegen_server ++ "-typescript " ++ OUTPUT_PATH ++ "/"

def findCleanupCmd (dir : String) : String :=
  "find " ++ OUTPUT_PATH ++ "/" ++ dir ++
  " | grep -E \x27smithy-build-info.json|sources/manifest|model.json\x27 | xargs rm -f"

def gitAddCmd : String := "git add -f " ++ OUTPUT_PATH

def fetchCmd (revision_sha : String) : String :=
  "git fetch --no-tags --progress --no-recurse-submodules --depth=1 origin " ++ revision_sha

/-- `git checkout <rev> -B <branch>` (forced branch creation, used by both
`checkout_commit_and_generate` functions). -/
def checkoutForceBranchCmd (revision_sha branch_name : String) : String :=
  "git checkout " ++ revision_sha ++ " -B " ++ branch_name

/-- `git checkout <rev> -b <branch>` (non-forcing branch creation, used by
`main` of codegen-diff-revisions.py). -/
def checkoutNewBranchCmd (revision_sha branch_name : String) : String :=
  "git checkout " ++ revision_sha ++ " -b " ++ branch_name

/-- The command sequence of `generate_and_commit_generated_code`
(diff_lib.py), in source order, for an effective target list. -/
def gcCmds (revision_sha : String) (targets : List String) : List String :=
  ["rm -rf aws/sdk/build", cleanTasksCmd targets, assembleTasksCmd targets,
   "rm -rf " ++ OUTPUT_PATH, "mkdir " ++ OUTPUT_PATH]
  ++ (if target_aws_sdk ∈ targets then [mvSdkCmd] else [])
  ++ (if target_codegen_client ∈ targets then [mvTargetCmd target_codegen_client] else [])
  ++ (if target_codegen_server ∈ targets then
        [mvTargetCmd target_codegen_server, stubsCmd, mvPythonCmd, mvTypescriptCmd]
      else [])
  ++ ["rm -f " ++ OUTPUT_PATH ++ "/aws-sdk/versions.toml",
      "rm -rf " ++ OUTPUT_PATH ++ "/codegen-client-test/source",
      findCleanupCmd "codegen-client-test",
      "rm -rf " ++ OUTPUT_PATH ++ "/codegen-server-test/source",
      "rm -rf " ++ OUTPUT_PATH ++ "/codegen-server-test-python/source",
      "rm -rf " ++ OUTPUT_PATH ++ "/codegen-server-test-typescript/source",
      findCleanupCmd "codegen-server-test",
      findCleanupCmd "codegen-server-test-python",
      findCleanupCmd "codegen-server-test-typescript"]
  ++ [gitAddCmd, commitCmd revision_sha]

/-- `generate_and_commit_generated_code(revision_sha, targets)` from
diff_lib.py: runs the build / relocation / cleanup commands in source order,
force-adds the output root and commits as the bot author. -/
def generate_and_commit_generated_code (env : Env) (revision_sha : String)
    (targets : Option (List String)) : Res Unit :=
  runSeq env ((gcCmds revision_sha (pyOrList targets defaultTargets)).map Ev.cmd)

/-- `checkout_commit_and_generate(revision_sha, branch_name, targets)` from
diff_lib.py: optional shallow fetch (docker build), forced branch creation
with `git checkout <rev> -B <branch>`, then generation and commit. -/
def checkout_commit_and_generate (env : Env) (revision_sha branch_name : String)
    (targets : Option (List String)) : Res Unit :=
  Res.bind (runSeq env
    ((if running_in_docker_build env then
        [Ev.log ("Fetching base revision " ++ revision_sha ++ " from GitHub..."),
         Ev.cmd (fetchCmd revision_sha)]
      else []) ++
     [Ev.log ("Creating temporary branch " ++ branch_name ++ " with generated code for " ++
        revision_sha),
      Ev.cmd (checkoutForceBranchCmd revision_sha branch_name)]))
    (fun _ => generate_and_commit_generated_code env revision_sha targets)

/-- The `git diff --quiet` probe issued by `make_diff` (note the doubled
space when the whitespace flag is empty, exactly as the f-string yields). -/
def quietDiffCmd (path_to_diff : String) (whitespace : Bool) : String :=
  "git diff --quiet " ++ (if whitespace then "" else "-b") ++ " " ++
  BASE_BRANCH_NAME ++ " " ++ HEAD_BRANCH_NAME ++ " -- " ++ path_to_diff

/-- The diff-materialising command issued by `make_diff` on a non-empty
diff. -/
def outputDiffCmd (path_to_diff : String) (whitespace : Bool) : String :=
  "git diff --output=codegen-diff.txt -U30 " ++ (if whitespace then "" else "-b") ++ " " ++
  BASE_BRANCH_NAME ++ " " ++ HEAD_BRANCH_NAME ++ " -- " ++ path_to_diff

def difftagsCmd (full_output_path title subtitle : String) : String :=
  "difftags --output-dir " ++ full_output_path ++ " --title \"" ++ title ++
  "\" --subtitle \"" ++ subtitle ++ "\" codegen-diff.txt"

/-- The events of `make_diff`'s rendering phase on a non-empty diff: create
the output directory, materialise the raw diff, and render it with
`difftags` (with the "Running diff cmd" diagnostic of the source). -/
def diffRenderEvs (title path_to_diff base_commit_sha head_commit_sha suffix : String)
    (whitespace : Bool) : List Ev :=
  [Ev.cmd ("mkdir -p " ++ (OUTPUT_PATH ++ "/" ++
     (base_commit_sha ++ "/" ++ head_commit_sha ++ "/" ++ suffix))),
   Ev.cmd (outputDiffCmd path_to_diff whitespace),
   Ev.log ("Running diff cmd: " ++ difftagsCmd
     (OUTPUT_PATH ++ "/" ++ (base_commit_sha ++ "/" ++ head_commit_sha ++ "/" ++ suffix))
     title
     ("rev. " ++ head_commit_sha ++ " " ++
       (if whitespace then "" else "(ignoring whitespace)"))),
   Ev.cmd (difftagsCmd
     (OUTPUT_PATH ++ "/" ++ (base_commit_sha ++ "/" ++ head_commit_sha ++ "/" ++ suffix))
     title
     ("rev. " ++ head_commit_sha ++ " " ++
       (if whitespace then "" else "(ignoring whitespace)")))]

/-- `make_diff(title, path_to_diff, base_commit_sha, head_commit_sha,
suffix, whitespace)` from diff_lib.py. -/
def make_diff (env : Env) (title path_to_diff base_commit_sha head_commit_sha suffix : String)
    (whitespace : Bool) : Res (Option String) :=
  Res.bind (getCmdStatus env (quietDiffCmd path_to_diff whitespace)) (fun diff_exists =>
    if diff_exists = 0 then
      ⟨[Ev.log ("No diff output for " ++ base_commit_sha ++ ".." ++ head_commit_sha ++
        " (" ++ suffix ++ ")")], .ok none⟩
    else
      Res.bind (runSeq env
        (diffRenderEvs title path_to_diff base_commit_sha head_commit_sha suffix whitespace))
        (fun _ => ⟨[], .ok (some (base_commit_sha ++ "/" ++ head_commit_sha ++ "/" ++
          suffix ++ "/index.html"))⟩))

/-- The value `make_diff` returns when it does not raise: `none` exactly
when the `git diff --quiet` probe reports an empty diff, otherwise the
relative path of the rendered index page. -/
def make_diff_value (env : Env) (path_to_diff base_commit_sha head_commit_sha suffix : String)
    (whitespace : Bool) : Option String :=
  if env.status none (quietDiffCmd path_to_diff whitespace) = 0 then none
  else some (base_commit_sha ++ "/" ++ head_commit_sha ++ "/" ++ suffix ++ "/index.html")

/-- Python's f-string interpolation of an `Optional[str]` (`None` renders as
the four characters `None`). -/
def pyStrOpt : Option String → String
  | none => "None"
  | some s => s

/-- `diff_link(diff_text, empty_diff_text, diff_location, alternate_text,
alternate_location)` from diff_lib.py. -/
def diff_link (diff_text empty_diff_text : String) (diff_location : Option String)
    (alternate_text : String) (alternate_location : Option String) : String :=
  match diff_location with
  | none => empty_diff_text
  | some loc =>
    "[" ++ diff_text ++ "](" ++ CDN_URL ++ "/codegen-diff/" ++ loc ++ ") ([" ++
    alternate_text ++ "](" ++ CDN_URL ++ "/codegen-diff/" ++ pyStrOpt alternate_location ++ "))"

/-- The report string assembled at the end of `make_diffs`: a header and one
bullet line per category, joined with literal backslash-n two-character
sequences ("Save escaped newlines so that the GitHub Action script gets the
whole message"). -/
def reportMessage (sdk_ws sdk_nows client_ws client_nows server_ws server_nows
    server_ws_python server_nows_python server_ws_typescript server_nows_typescript :
    Option String) : String :=
  "A new generated diff is ready to view.\\n" ++
  "- " ++ diff_link "AWS SDK" "No codegen difference in the AWS SDK"
    sdk_ws "ignoring whitespace" sdk_nows ++ "\\n" ++
  "- " ++ diff_link "Client Test" "No codegen difference in the Client Test"
    client_ws "ignoring whitespace" client_nows ++ "\\n" ++
  "- " ++ diff_link "Server Test" "No codegen difference in the Server Test"
    server_ws "ignoring whitespace" server_nows ++ "\\n" ++
  "- " ++ diff_link "Server Test Python" "No codegen difference in the Server Test Python"
    server_ws_python "ignoring whitespace" server_nows_python ++ "\\n" ++
  "- " ++ diff_link "Server Test Typescript" "No codegen difference in the Server Test Typescript"
    server_ws_typescript "ignoring whitespace" server_nows_typescript ++ "\\n"

/-- `make_diffs(base_commit_sha, head_commit_sha)` from diff_lib.py: the ten
`make_diff` calls in source order (whitespace-sensitive and
whitespace-insensitive runs per category) followed by message assembly. -/
def make_diffs (env : Env) (base_commit_sha head_commit_sha : String) : Res String :=
  Res.bind (make_diff env "AWS SDK" (OUTPUT_PATH ++ "/aws-sdk")
      base_commit_sha head_commit_sha "aws-sdk" true) (fun sdk_ws =>
  Res.bind (make_diff env "AWS SDK" (OUTPUT_PATH ++ "/aws-sdk")
      base_commit_sha head_commit_sha "aws-sdk-ignore-whitespace" false) (fun sdk_nows =>
  Res.bind (make_diff env "Client Test" (OUTPUT_PATH ++ "/codegen-client-test")
      base_commit_sha head_commit_sha "client-test" true) (fun client_ws =>
  Res.bind (make_diff env "Client Test" (OUTPUT_PATH ++ "/codegen-client-test")
      base_commit_sha head_commit_sha "client-test-ignore-whitespace" false) (fun client_nows =>
  Res.bind (make_diff env "Server Test" (OUTPUT_PATH ++ "/codegen-server-test")
      base_commit_sha head_commit_sha "server-test" true) (fun server_ws =>
  Res.bind (make_diff env "Server Test" (OUTPUT_PATH ++ "/codegen-server-test")
      base_commit_sha head_commit_sha "server-test-ignore-whitespace" false) (fun server_nows =>
  Res.bind (make_diff env "Server Test Python" (OUTPUT_PATH ++ "/codegen-server-test-python")
      base_commit_sha head_commit_sha "server-test-python" true) (fun server_ws_python =>
  Res.bind (make_diff env "Server Test Python" (OUTPUT_PATH ++ "/codegen-server-test-python")
      base_commit_sha head_commit_sha "server-test-python-ignore-whitespace" false)
      (fun server_nows_python =>
  Res.bind (make_diff env "Server Test Typescript"
      (OUTPUT_PATH ++ "/codegen-server-test-typescript")
      base_commit_sha head_commit_sha "server-test-typescript" true) (fun server_ws_typescript =>
  Res.bind (make_diff env "Server Test Typescript"
      (OUTPUT_PATH ++ "/codegen-server-test-typescript")
      base_commit_sha head_commit_sha "server-test-typescript-ignore-whitespace" false)
      (fun server_nows_typescript =>
  ⟨[], .ok (reportMessage sdk_ws sdk_nows client_ws client_nows server_ws server_nows
    server_ws_python server_nows_python server_ws_typescript server_nows_typescript)⟩))))))))))

/-- Modelled from claim C1's words: a report in which each bullet's primary
link is the whitespace-insensitive diff result and the whitespace-sensitive
result is the nested "ignoring whitespace" alternate — the converse of what
`reportMessage` receives from `make_diffs`. -/
def claimC1Message (env : Env) (base_commit_sha head_commit_sha : String) : String :=
  reportMessage
    (make_diff_value env (OUTPUT_PATH ++ "/aws-sdk")
      base_commit_sha head_commit_sha "aws-sdk-ignore-whitespace" false)
    (make_diff_value env (OUTPUT_PATH ++ "/aws-sdk")
      base_commit_sha head_commit_sha "aws-sdk" true)
    (make_diff_value env (OUTPUT_PATH ++ "/codegen-client-test")
      base_commit_sha head_commit_sha "client-test-ignore-whitespace" false)
    (make_diff_value env (OUTPUT_PATH ++ "/codegen-client-test")
      base_commit_sha head_commit_sha "client-test" true)
    (make_diff_value env (OUTPUT_PATH ++ "/codegen-server-test")
      base_commit_sha head_commit_sha "server-test-ignore-whitespace" false)
    (make_diff_value env (OUTPUT_PATH ++ "/codegen-server-test")
      base_commit_sha head_commit_sha "server-test" true)
    (make_diff_value env (OUTPUT_PATH ++ "/codegen-server-test-python")
      base_commit_sha head_commit_sha "server-test-python-ignore-whitespace" false)
    (make_diff_value env (OUTPUT_PATH ++ "/codegen-server-test-python")
      base_commit_sha head_commit_sha "server-test-python" true)
    (make_diff_value env (OUTPUT_PATH ++ "/codegen-server-test-typescript")
      base_commit_sha head_commit_sha "server-test-typescript-ignore-whitespace" false)
    (make_diff_value env (OUTPUT_PATH ++ "/codegen-server-test-typescript")
      base_commit_sha head_commit_sha "server-test-typescript" true)

namespace CodegenDiffRevisions

/-- `main()` of codegen-diff-revisions.py: argument check, `git rev-parse
HEAD`, clean-tree check, optional fetch, `git checkout <head> -b
<HEAD_BRANCH>`, generation for head, `git checkout <base> -b <BASE_BRANCH>`,
generation for base, diff computation, report write, and local-dev cleanup
outside docker builds.  (`os.chdir` touches no external state tracked
here.) -/
def main (env : Env) (argv : List String) : Res Unit :=
  if argv.length ≠ 3 then
    ⟨[Ev.log "Usage: codegen-diff-revisions.py <repository root> <base commit sha>"],
     .exited 1⟩
  else
    let base_commit_sha := argv.getD 2 ""
    Res.bind (getCmdOutput env none "git rev-parse HEAD") (fun r =>
    let head_commit_sha := r.2.1
    Res.bind (getCmdStatus env "git diff --quiet") (fun dirty =>
    if dirty ≠ 0 then
      ⟨[Ev.log "working tree is not clean. aborting"], .exited 1⟩
    else
      Res.bind (runSeq env
        ((if running_in_docker_build env then
            [Ev.log ("Fetching base revision " ++ base_commit_sha ++ " from GitHub..."),
             Ev.cmd (fetchCmd base_commit_sha)]
          else []) ++
         [Ev.log ("Creating temporary branch with generated code for the HEAD revision " ++
            head_commit_sha),
          Ev.cmd (checkoutNewBranchCmd head_commit_sha HEAD_BRANCH_NAME)]))
        (fun _ =>
      Res.bind (generate_and_commit_generated_code env head_commit_sha none) (fun _ =>
      Res.bind (runSeq env
        [Ev.log ("Creating temporary branch with generated code for the base revision " ++
           base_commit_sha),
         Ev.cmd (checkoutNewBranchCmd base_commit_sha BASE_BRANCH_NAME)]) (fun _ =>
      Res.bind (generate_and_commit_generated_code env base_commit_sha none) (fun _ =>
      Res.bind (make_diffs env base_commit_sha head_commit_sha) (fun bot_message =>
      runSeq env
        ([Ev.writeFile (OUTPUT_PATH ++ "/bot-message") bot_message] ++
         (if running_in_docker_build env then []
          else [Ev.cmd "git checkout main",
                Ev.cmd ("git branch -D " ++ BASE_BRANCH_NAME),
                Ev.cmd ("git branch -D " ++ HEAD_BRANCH_NAME)])))))))))

end CodegenDiffRevisions

namespace SemverChecks

def CURRENT_BRANCH : String := "current"

def BASE_BRANCH : String := "base"

/-- `bool(os.environ.get('SKIP_GENERATION') or False)`: true exactly for a
set, non-empty value of the variable (any non-empty string is truthy). -/
def skipGeneration (v : Option String) : Bool :=
  match v with
  | none => false
  | some s => !(s == "")

/-- Embedding of Python's single-character membership test `c in s`. -/
def pyContains (s : String) (c : Char) : Bool := s.data.contains c

/-- `parse_package_id` from semver-checks.py:
`id.split('#')[1].split('@')[0]` when `id` contains both `'#'` and `'@'`,
`id.split('/')[-1].split('#')[0]` when it contains `'#'` but no `'@'`, and
an "unknown format" exception otherwise.  Python's `split`, indexing `[1]`
(which cannot be out of range under the branch guard), `[-1]` and `[0]` are
embedded through `pySplit`, `List.getD` and `List.getLastD`. -/
def parse_package_id (id : String) : Except String String :=
  if pyContains id '#' && pyContains id '@' then
    .ok ⟨(pySplit '@' ((pySplit '#' id.data).getD 1 [])).getD 0 []⟩
  else if pyContains id '#' then
    .ok ⟨(pySplit '#' ((pySplit '/' id.data).getLastD [])).getD 0 []⟩
  else
    .error "unknown format"

/-- Modelled from claim C10's words: "the substring between the first `'#'`
and the subsequent `'@'`" — everything after the first `'#'`, truncated at
the first following `'@'`. -/
def betweenHashAndAt (id : String) : String :=
  ⟨((id.data.dropWhile (· ≠ '#')).tail).takeWhile (· ≠ '@')⟩

/-- The build commands of `_generate_and_commit` (semver-checks.py), minus
the final bot commit. -/
def genCmds (repository_root : String) : List String :=
  ["./gradlew --rerun-tasks aws:sdk:clean",
   "./gradlew --rerun-tasks aws:sdk:assemble",
   "git rm -r " ++ repository_root ++ "/aws/rust-runtime",
   "git rm -r " ++ repository_root ++ "/rust-runtime",
   "mv " ++ repository_root ++ "/aws/sdk/build/aws-sdk " ++ repository_root,
   "git add -f " ++ repository_root ++ "/aws-sdk"]

/-- `_generate_and_commit(revision_sha, repository_root)` from
semver-checks.py. -/
def generate_and_commit (env : Env) (revision_sha repository_root : String) : Res Unit :=
  runSeq env ((genCmds repository_root).map Ev.cmd ++ [Ev.cmd (commitCmd revision_sha)])

/-- The event sequence of semver-checks' `checkout_commit_and_generate`. -/
def ccgEvs (env : Env) (revision_sha branch_name repository_root : String) : List Ev :=
  (if running_in_docker_build env then
     [Ev.log ("Fetching base revision " ++ revision_sha ++ " from GitHub..."),
      Ev.cmd (fetchCmd revision_sha)]
   else []) ++
  [Ev.log ("Creating temporary branch " ++ branch_name ++ " with generated code for " ++
     revision_sha),
   Ev.cmd (checkoutForceBranchCmd revision_sha branch_name)] ++
  (genCmds repository_root).map Ev.cmd ++ [Ev.cmd (commitCmd revision_sha)]

/-- `checkout_commit_and_generate(revision_sha, branch_name,
repository_root)` from semver-checks.py: optional shallow fetch, forced
branch creation with `git checkout <rev> -B <branch>`, then
`_generate_and_commit`. -/
def checkout_commit_and_generate (env : Env)
    (revision_sha branch_name repository_root : String) : Res Unit :=
  runSeq env (ccgEvs env revision_sha branch_name repository_root)

def catFileCmd (path : String) : String :=
  "git cat-file -e base:./" ++ path ++ "/Cargo.toml"

/-- The `cargo semver-checks` invocation for one crate directory (written in
right-nested form, so that the crate path and package id sit between fixed
separator strings). -/
def semverCheckCmd (path pkgid : String) : String :=
  "cargo semver-checks check-release --baseline-rev " ++ BASE_BRANCH ++
  " --manifest-path " ++
  (path ++ ("/Cargo.toml -v -p " ++ (pkgid ++ " --all-features --release-type minor")))

/-- The package id the per-crate step computes for `path`: the parsed output
of `cargo pkgid` run inside that crate directory (junk when parsing would
raise; the theorems assume parse success for checked crates). -/
def pkgidOf (env : Env) (path : String) : String :=
  match parse_package_id (env.out (some path) "cargo pkgid") with
  | .ok s => s
  | .error _ => ""

/-- The deny-list of the crate loop (empty in the source; "add crate names
here to exclude them from the semver checks"). -/
def deny_list : List String := []

/-- One iteration of the `for path in os.listdir()` loop of semver-checks'
`main`: skip deny-listed crates, skip crates whose `Cargo.toml` is absent
from the `base` revision, otherwise run `cargo pkgid`, parse it, run the
semver check without aborting on failure, and accumulate failures. -/
def checkCrate (env : Env) (path : String) (failures : List String) : Res (List String) :=
  Res.bind (⟨[Ev.log ("checking " ++ path ++ "...")], .ok ()⟩ : Res Unit) (fun _ =>
  if path ∈ deny_list then
    ⟨[Ev.log ("skipping " ++ path ++ " because it is in \x27deny_list\x27")], .ok failures⟩
  else
    Res.bind (getCmdStatus env (catFileCmd path)) (fun st =>
    if st ≠ 0 then
      ⟨[Ev.log ("skipping " ++ path ++ " because it does not exist in base")], .ok failures⟩
    else
      Res.bind (getCmdOutput env (some path) "cargo pkgid") (fun r =>
      match parse_package_id r.2.1 with
      | .error e => ⟨[Ev.log r.2.1], .raised e⟩
      | .ok pkgid =>
        Res.bind (getCmdOutputNoCheck env none (semverCheckCmd path pkgid)) (fun s =>
        if s.1 = 0 then ⟨[Ev.log "ok!"], .ok failures⟩
        else
          ⟨[Ev.log "failed!"] ++ (if s.2.1 = "" then [] else [Ev.log s.2.1]) ++
             [Ev.log s.2.2],
           .ok (failures ++ [s.2.1 ++ s.2.2])⟩))))

/-- The crate loop of semver-checks' `main`. -/
def checkLoop (env : Env) : List String → List String → Res (List String)
  | [], failures => ⟨[], .ok failures⟩
  | p :: ps, failures =>
    Res.bind (checkCrate env p failures) (fun failures2 => checkLoop env ps failures2)

/-- `main(skip_generation)` of semver-checks.py. -/
def main (env : Env) (argv : List String) (skip_generation : Bool) : Res Unit :=
  if argv.length ≠ 3 then
    ⟨[Ev.log "Usage: semver-checks.py <repository root> <base commit sha>"], .exited 1⟩
  else
    let repository_root := argv.getD 1 ""
    let base_commit_sha := argv.getD 2 ""
    Res.bind (getCmdOutput env none "git rev-parse HEAD") (fun r =>
    let head_commit_sha := r.2.1
    Res.bind (getCmdStatus env "git diff --quiet") (fun dirty =>
    if dirty ≠ 0 then
      ⟨[Ev.log "working tree is not clean. aborting"], .exited 1⟩
    else
      Res.bind (if skip_generation then ⟨[], .ok ()⟩ else
        Res.bind (checkout_commit_and_generate env head_commit_sha CURRENT_BRANCH
          repository_root)
          (fun _ => checkout_commit_and_generate env base_commit_sha BASE_BRANCH
            repository_root))
        (fun _ =>
      Res.bind (getCmdOutput env none ("git checkout " ++ CURRENT_BRANCH)) (fun _ =>
      Res.bind (checkLoop env env.listing []) (fun failures =>
      if failures.isEmpty then ⟨[], .ok ()⟩
      else
        ⟨[Ev.log "One or more crates failed semver checks!",
          Ev.log (strJoin "\n" failures)], .exited 1⟩)))))

/-- The `__main__` block of semver-checks.py: `--self-test` runs the unit
tests (whose effects are outside the modelled world), otherwise `main` runs
with `skip_generation` computed from `SKIP_GENERATION`. -/
def scriptEntry (env : Env) (argv : List String) : Res Unit :=
  if argv.length > 1 ∧ argv.getD 1 "" = "--self-test" then ⟨[], .ok ()⟩
  else main env argv (skipGeneration env.skipGenVar)

/-- The events one loop iteration emits for crate `path` when its
`cargo pkgid` parses (derived characterization of `checkCrate`, proven
equivalent below). -/
def crateEvs (env : Env) (path : String) : List Ev :=
  Ev.log ("checking " ++ path ++ "...") ::
  (if path ∈ deny_list then
     [Ev.log ("skipping " ++ path ++ " because it is in \x27deny_list\x27")]
   else if env.status none (catFileCmd path) ≠ 0 then
     [Ev.cmd (catFileCmd path),
      Ev.log ("skipping " ++ path ++ " because it does not exist in base")]
   else
     [Ev.cmd (catFileCmd path), Ev.cmd "cargo pkgid",
      Ev.cmd (semverCheckCmd path (pkgidOf env path))] ++
     (if env.status none (semverCheckCmd path (pkgidOf env path)) = 0 then
        [Ev.log "ok!"]
      else
        [Ev.log "failed!"] ++
        (if env.out none (semverCheckCmd path (pkgidOf env path)) = "" then []
         else [Ev.log (env.out none (semverCheckCmd path (pkgidOf env path)))]) ++
        [Ev.log (env.err none (semverCheckCmd path (pkgidOf env path)))]))

/-- The failures one loop iteration appends for crate `path` (derived
characterization of `checkCrate`). -/
def crateFails (env : Env) (path : String) : List String :=
  if path ∈ deny_list then []
  else if env.status none (catFileCmd path) ≠ 0 then []
  else if env.status none (semverCheckCmd path (pkgidOf env path)) = 0 then []
  else [env.out none (semverCheckCmd path (pkgidOf env path)) ++
        env.err none (semverCheckCmd path (pkgidOf env path))]

/-- The crates the loop actually checks: directory entries outside the
deny-list whose `Cargo.toml` exists in the `base` revision. -/
def checkedCrates (env : Env) : List String :=
  env.listing.filter (fun p =>
    !(deny_list.contains p) && (env.status none (catFileCmd p) == 0))

/-- Classifier for trace events: the command string of a
`cargo semver-checks` invocation, `none` for anything else. -/
def semverCmdOf : Ev → Option String
  | Ev.cmd s => if hasPre "cargo semver-checks" s then some s else none
  | _ => none

end SemverChecks

/-- Concatenation of the per-element lists (the shape of a loop trace). -/
def listFlat {α β : Type} (f : α → List β) : List α → List β
  | [] => []
  | x :: xs => f x ++ listFlat f xs

/-- Modelled from the external git CLI semantics: `git checkout <rev> -b
<name>` exits non-zero iff branch `<name>` already exists. -/
def gitCheckoutNewBranchStatus (branches : List String) (branch_name : String) : Nat :=
  if branch_name ∈ branches then 1 else 0

/-- Modelled from the external git CLI semantics: `git checkout <rev> -B
<name>` resets the branch and succeeds whether or not `<name>` exists. -/
def gitCheckoutForceBranchStatus (branches : List String) : Nat := 0

/-- A concrete oracle under which every external command succeeds. -/
def envAllOk : Env :=
  { docker := none, skipGenVar := none, status := fun _ _ => 0,
    out := fun _ _ => "", err := fun _ _ => "", listing := [] }

/-- A concrete oracle under which every branch-comparison diff probe of
`make_diff` reports a difference and every other command succeeds.  (The
probes issued by `make_diff` start with `git diff --quiet ` including a
trailing space; the orchestrator's clean-tree probe is the bare
`git diff --quiet` and still succeeds.) -/
def envAllDiffs : Env :=
  { docker := none, skipGenVar := none,
    status := fun _ c => if hasPre "git diff --quiet " c then 1 else 0,
    out := fun _ _ => "", err := fun _ _ => "", listing := [] }

/-- A concrete oracle describing a repository whose working tree is dirty:
the clean-tree probe `git diff --quiet` exits non-zero, every other command
succeeds. -/
def envDirty : Env :=
  { docker := none, skipGenVar := none,
    status := fun _ c => if c = "git diff --quiet" then 1 else 0,
    out := fun _ _ => "h", err := fun _ _ => "", listing := [] }

/-- A concrete oracle describing a repository in which the temporary head
branch `__tmp-localonly-head` is left over from a previous run of the same
script: the non-forcing branch creation for HEAD (rev-parse output `"h"`)
fails per git semantics, and every other command succeeds. -/
def envStaleBranch : Env :=
  { docker := none, skipGenVar := none,
    status := fun _ c =>
      if c = checkoutNewBranchCmd "h" HEAD_BRANCH_NAME then
        gitCheckoutNewBranchStatus [HEAD_BRANCH_NAME] HEAD_BRANCH_NAME
      else 0,
    out := fun _ _ => "h", err := fun _ _ => "", listing := [] }

/-- A concrete oracle with `SKIP_GENERATION=0` set (a value the scripts
treat as truthy) and every command succeeding. -/
def envSkip : Env :=
  { docker := none, skipGenVar := some "0", status := fun _ _ => 0,
    out := fun _ _ => "h", err := fun _ _ => "", listing := [] }

/-- A concrete oracle for the semver-checks crate loop: two crate
directories, both present in the base revision, whose `cargo pkgid` output
parses to the directory name; the check of `s3` fails, the check of
`aws-config` passes.  Generation is skipped via `SKIP_GENERATION=1`. -/
def envLoop : Env :=
  { docker := none, skipGenVar := some "1",
    status := fun _ c =>
      if c = SemverChecks.semverCheckCmd "s3" "s3" then 1 else 0,
    out := fun cwd c =>
      if c = "cargo pkgid" then
        (match cwd with
         | some p => p ++ "#" ++ p ++ "@0.1"
         | none => "")
      else "h",
    err := fun _ _ => "", listing := ["aws-config", "s3"] }

/-!
Theorems.
-/

theorem pySplit_ne_nil (sep : Char) (l : List Char) : pySplit sep l ≠ [] := by
  cases l with
  | nil => simp [pySplit]
  | cons c rest =>
    unfold pySplit
    split
    · simp
    · split <;> simp

theorem pySplit_cons_pos (sep : Char) (rest : List Char) :
    pySplit sep (sep :: rest) = [] :: pySplit sep rest := by
  conv_lhs => unfold pySplit
  rw [if_pos rfl]

theorem pySplit_cons_neg (sep c : Char) (rest : List Char) (hc : ¬ c = sep) :
    pySplit sep (c :: rest) =
      (c :: (pySplit sep rest).headD []) :: (pySplit sep rest).tail := by
  conv_lhs => unfold pySplit
  rw [if_neg hc]
  cases hps : pySplit sep rest with
  | nil => exact absurd hps (pySplit_ne_nil sep rest)
  | cons h t => rfl

theorem afterLast_cons (sep c : Char) (rest : List Char) :
    afterLast sep (c :: rest) =
      if sep ∈ rest then afterLast sep rest
      else if c = sep then rest else c :: rest := rfl

theorem pySplit_of_not_mem (sep : Char) (l : List Char) (h : sep ∉ l) :
    pySplit sep l = [l] := by
  induction l with
  | nil => rfl
  | cons c rest ih =>
    have hc : ¬ c = sep := fun hc => h (hc ▸ List.mem_cons_self c rest)
    have hr : sep ∉ rest := fun hm => h (List.mem_cons_of_mem c hm)
    rw [pySplit_cons_neg sep c rest hc, ih hr]
    rfl

theorem pySplit_headD (sep : Char) (l : List Char) :
    (pySplit sep l).headD [] = l.takeWhile (· ≠ sep) := by
  induction l with
  | nil => rfl
  | cons c rest ih =>
    by_cases hc : c = sep
    · subst hc
      rw [pySplit_cons_pos, List.takeWhile_cons_of_neg (by simp)]
      rfl
    · rw [pySplit_cons_neg sep c rest hc,
        List.takeWhile_cons_of_pos (p := fun x => decide (x ≠ sep)) (by simpa using hc),
        List.headD_cons, ih]

theorem pySplit_of_mem (sep : Char) (l : List Char) (h : sep ∈ l) :
    pySplit sep l =
      l.takeWhile (· ≠ sep) :: pySplit sep ((l.dropWhile (· ≠ sep)).tail) := by
  induction l with
  | nil => cases h
  | cons c rest ih =>
    by_cases hc : c = sep
    · subst hc
      rw [pySplit_cons_pos, List.takeWhile_cons_of_neg (by simp),
        List.dropWhile_cons_of_neg (by simp)]
      rfl
    · have hmem : sep ∈ rest := by
        cases h with
        | head => exact absurd rfl hc
        | tail _ hm => exact hm
      rw [pySplit_cons_neg sep c rest hc, ih hmem,
        List.takeWhile_cons_of_pos (p := fun x => decide (x ≠ sep)) (by simpa using hc),
        List.dropWhile_cons_of_pos (p := fun x => decide (x ≠ sep)) (by simpa using hc)]
      rfl

theorem pySplit_getD_one (sep : Char) (l : List Char) (h : sep ∈ l) :
    (pySplit sep l).getD 1 [] =
      ((l.dropWhile (· ≠ sep)).tail).takeWhile (· ≠ sep) := by
  rw [pySplit_of_mem sep l h]
  have h2 : ∀ (m : List (List Char)) (x : List Char), (x :: m).getD 1 [] = m.headD [] := by
    intro m x
    cases m <;> rfl
  rw [h2, pySplit_headD]

theorem getD_zero_headD (l : List (List Char)) : l.getD 0 [] = l.headD [] := by
  cases l <;> rfl

theorem afterLast_of_not_mem (sep : Char) (l : List Char) (h : sep ∉ l) :
    afterLast sep l = l := by
  cases l with
  | nil => rfl
  | cons c rest =>
    have hc : ¬ c = sep := fun hc => h (hc ▸ List.mem_cons_self c rest)
    have hr : sep ∉ rest := fun hm => h (List.mem_cons_of_mem c hm)
    rw [afterLast_cons, if_neg hr, if_neg hc]

theorem getLastD_indep (t : List (List Char)) (a b : List Char) (h : t ≠ []) :
    t.getLastD a = t.getLastD b := by
  cases t with
  | nil => exact absurd rfl h
  | cons x t' => simp [List.getLastD]

theorem pySplit_getLastD (sep : Char) (l : List Char) :
    (pySplit sep l).getLastD [] = afterLast sep l := by
  induction l with
  | nil => rfl
  | cons c rest ih =>
    by_cases hc : c = sep
    · subst hc
      rw [pySplit_cons_pos]
      have h1 : (([] : List Char) :: pySplit c rest).getLastD [] =
          (pySplit c rest).getLastD [] := by
        cases hps : pySplit c rest with
        | nil => exact absurd hps (pySplit_ne_nil c rest)
        | cons x t => simp [List.getLastD]
      rw [h1, ih, afterLast_cons]
      by_cases hm : c ∈ rest
      · rw [if_pos hm]
      · rw [if_neg hm, if_pos rfl, afterLast_of_not_mem c rest hm]
    · rw [pySplit_cons_neg sep c rest hc, afterLast_cons]
      by_cases hm : sep ∈ rest
      · rw [if_pos hm, ← ih]
        have hsplit := pySplit_of_mem sep rest hm
        rw [hsplit]
        cases hpx : pySplit sep ((rest.dropWhile (· ≠ sep)).tail) with
        | nil => exact absurd hpx (pySplit_ne_nil _ _)
        | cons y u => simp [List.getLastD]
      · rw [if_neg hm, if_neg hc]
        rw [pySplit_of_not_mem sep rest hm]
        simp [List.getLastD]

theorem pySplit_append (sep : Char) (a b : List Char) :
    pySplit sep (a ++ sep :: b) = pySplit sep a ++ pySplit sep b := by
  induction a with
  | nil =>
    show pySplit sep (sep :: b) = pySplit sep [] ++ pySplit sep b
    rw [pySplit_cons_pos]
    rfl
  | cons c a' ih =>
    by_cases hc : c = sep
    · subst hc
      show pySplit c (c :: (a' ++ c :: b)) = pySplit c (c :: a') ++ pySplit c b
      rw [pySplit_cons_pos, pySplit_cons_pos, ih]
      rfl
    · show pySplit sep (c :: (a' ++ sep :: b)) = pySplit sep (c :: a') ++ pySplit sep b
      rw [pySplit_cons_neg sep c _ hc, pySplit_cons_neg sep c a' hc, ih]
      cases hps : pySplit sep a' with
      | nil => exact absurd hps (pySplit_ne_nil sep a')
      | cons h t => simp

theorem isPrefixOf_append_right (p a x : List Char) (h : p.isPrefixOf a = true) :
    p.isPrefixOf (a ++ x) = true := by
  rw [ List.isPrefixOf_iff_prefix] at h ⊢
  exact h.trans (List.prefix_append a x)

theorem hasPre_append (p a x : String) (h : hasPre p a = true) :
    hasPre p (a ++ x) = true := by
  unfold hasPre at *
  rw [String.data_append]
  exact isPrefixOf_append_right _ _ _ h

theorem isPrefixOf_ne_head (c d : Char) (l m : List Char) (h : ¬ c = d) :
    (c :: l).isPrefixOf (d :: m) = false := by
  simp [List.isPrefixOf, h]

theorem hasPre_false_of_head (p s t : String) (cp cs : Char) (lp ls : List Char)
    (hp : p.data = cp :: lp) (hs : s.data = cs :: ls) (hne : ¬ cp = cs) :
    hasPre p (s ++ t) = false := by
  unfold hasPre
  rw [String.data_append, hp, hs]
  exact isPrefixOf_ne_head cp cs lp (ls ++ t.data) hne

theorem ne_of_take_ne (p q a b : List Char)
    (h : p.take (min p.length q.length) ≠ q.take (min p.length q.length)) :
    p ++ a ≠ q ++ b := by
  intro he
  apply h
  have h1 := congrArg (List.take (min p.length q.length)) he
  rw [List.take_append_of_le_length (Nat.min_le_left _ _),
    List.take_append_of_le_length (Nat.min_le_right _ _)] at h1
  exact h1

theorem strNe (p q a b : String)
    (h : p.data.take (min p.data.length q.data.length) ≠
         q.data.take (min p.data.length q.data.length)) :
    p ++ a ≠ q ++ b := by
  intro he
  have hd := congrArg String.data he
  rw [String.data_append, String.data_append] at hd
  exact ne_of_take_ne _ _ _ _ h hd

theorem strNeR (p a q : String)
    (h : p.data.take (min p.data.length q.data.length) ≠
         q.data.take (min p.data.length q.data.length)) :
    p ++ a ≠ q := fun he => strNe p q a "" h (by rw [he, String.append_empty])

theorem no_append_eq (s c : List Char) (h : c.drop (c.length - s.length) ≠ s)
    (l : List Char) : l ++ s ≠ c := by
  intro he
  apply h
  have hlen : l.length + s.length = c.length := by
    have := congrArg List.length he
    simpa using this
  have hd : (l ++ s).drop l.length = s := List.drop_left l s
  rw [he] at hd
  have h2 : c.length - s.length = l.length := by omega
  rw [h2, hd]

theorem split_at_first (ch : Char) :
    ∀ (a₁ a₂ r₁ r₂ : List Char), a₁ ++ ch :: r₁ = a₂ ++ ch :: r₂ →
    ch ∉ a₁ → ch ∉ a₂ → a₁ = a₂ ∧ r₁ = r₂ := by
  intro a₁
  induction a₁ with
  | nil =>
    intro a₂ r₁ r₂ he h1 h2
    cases a₂ with
    | nil => simpa using he
    | cons b a₂' =>
      rw [List.nil_append, List.cons_append] at he
      have hb : ch = b := (List.cons.inj he).1
      exact absurd (hb ▸ List.mem_cons_self b a₂') h2
  | cons x a₁' ih =>
    intro a₂ r₁ r₂ he h1 h2
    cases a₂ with
    | nil =>
      rw [List.cons_append, List.nil_append] at he
      have hx : x = ch := (List.cons.inj he).1
      exact absurd (hx ▸ List.mem_cons_self x a₁') h1
    | cons y a₂' =>
      rw [List.cons_append, List.cons_append] at he
      have hxy : x = y := (List.cons.inj he).1
      have he' := (List.cons.inj he).2
      have hrec := ih a₂' r₁ r₂ he' (fun hm => h1 (List.mem_cons_of_mem x hm))
        (fun hm => h2 (List.mem_cons_of_mem y hm))
      exact ⟨by rw [hxy, hrec.1], hrec.2⟩

theorem strCancel (p a b : String) (h : p ++ a = p ++ b) : a = b := by
  have hd := congrArg String.data h
  rw [String.data_append, String.data_append] at hd
  exact String.ext (List.append_cancel_left hd)

theorem hasPre_self (s : String) : hasPre s s = true := by
  unfold hasPre
  rw [ List.isPrefixOf_iff_prefix]

theorem data_head_of_append (a b : String) (c : Char) (l : List Char)
    (h : a.data = c :: l) : (a ++ b).data = c :: (l ++ b.data) := by
  rw [String.data_append, h]
  rfl

theorem hasPre_false_head (p s : String) (cp cs : Char) (lp ls : List Char)
    (hp : p.data = cp :: lp) (hs : s.data = cs :: ls) (hne : ¬ cp = cs) :
    hasPre p s = false := by
  unfold hasPre
  rw [hp, hs]
  exact isPrefixOf_ne_head cp cs lp ls hne

theorem strJoin_suffix (suf : String) (ts : List String) (h : ts ≠ []) :
    ∃ l, (strJoin " " (ts.map (fun t => t ++ suf))).data = l ++ suf.data := by
  induction ts with
  | nil => exact absurd rfl h
  | cons x xs ih =>
    cases xs with
    | nil => exact ⟨x.data, by simp [strJoin, String.data_append]⟩
    | cons y ys =>
      obtain ⟨l, hl⟩ := ih (by simp)
      refine ⟨x.data ++ suf.data ++ " ".data ++ l, ?_⟩
      have hstep : strJoin " " ((x :: y :: ys).map (fun t => t ++ suf)) =
          (x ++ suf) ++ " " ++ strJoin " " ((y :: ys).map (fun t => t ++ suf)) := rfl
      rw [hstep, String.data_append, String.data_append, hl]
      simp [String.data_append, List.append_assoc]

theorem gradlewTasks_ne (suf tail_ : String) (ts : List String)
    (hempty : ¬ ("" : String) = tail_)
    (hsufne : ∀ l, l ++ suf.data ≠ tail_.data) :
    ¬ "./gradlew --rerun-tasks " ++ strJoin " " (ts.map (fun t => t ++ suf)) =
      "./gradlew --rerun-tasks " ++ tail_ := by
  intro he
  have hc := strCancel _ _ _ he
  cases ts with
  | nil => exact hempty (by simpa [strJoin] using hc)
  | cons x xs =>
    obtain ⟨l, hl⟩ := strJoin_suffix suf (x :: xs) (by simp)
    have hd := congrArg String.data hc
    rw [hl] at hd
    exact hsufne l hd

theorem runSeq_nil (env : Env) : runSeq env [] = ⟨[], .ok ()⟩ := rfl

theorem runSeq_cmd (env : Env) (c : String) (es : List Ev) :
    runSeq env (Ev.cmd c :: es) =
      if env.status none c = 0 then
        ⟨Ev.cmd c :: (runSeq env es).trace, (runSeq env es).result⟩
      else ⟨[Ev.cmd c], .raised c⟩ := rfl

theorem runSeq_log (env : Env) (s : String) (es : List Ev) :
    runSeq env (Ev.log s :: es) =
      ⟨Ev.log s :: (runSeq env es).trace, (runSeq env es).result⟩ := rfl

theorem runSeq_writeFile (env : Env) (p t : String) (es : List Ev) :
    runSeq env (Ev.writeFile p t :: es) =
      ⟨Ev.writeFile p t :: (runSeq env es).trace, (runSeq env es).result⟩ := rfl

theorem runSeq_ok (env : Env) (evs : List Ev)
    (h : ∀ c, Ev.cmd c ∈ evs → env.status none c = 0) :
    runSeq env evs = ⟨evs, .ok ()⟩ := by
  induction evs with
  | nil => rfl
  | cons e es ih =>
    have hrest : ∀ c, Ev.cmd c ∈ es → env.status none c = 0 :=
      fun c hm => h c (List.mem_cons_of_mem e hm)
    have hr := ih hrest
    cases e with
    | cmd c =>
      rw [runSeq_cmd, if_pos (h c (List.mem_cons_self _ _)), hr]
    | log s => rw [runSeq_log, hr]
    | writeFile p t => rw [runSeq_writeFile, hr]

theorem runSeq_append_ok (env : Env) (a b : List Ev)
    (h : ∀ c, Ev.cmd c ∈ a → env.status none c = 0) :
    runSeq env (a ++ b) =
      ⟨a ++ (runSeq env b).trace, (runSeq env b).result⟩ := by
  induction a with
  | nil => simp [runSeq_nil]
  | cons e es ih =>
    have hrest : ∀ c, Ev.cmd c ∈ es → env.status none c = 0 :=
      fun c hm => h c (List.mem_cons_of_mem e hm)
    have hr := ih hrest
    cases e with
    | cmd c =>
      rw [List.cons_append, runSeq_cmd, if_pos (h c (List.mem_cons_self _ _)), hr]
      simp
    | log s =>
      rw [List.cons_append, runSeq_log, hr]
      simp
    | writeFile p t =>
      rw [List.cons_append, runSeq_writeFile, hr]
      simp

theorem runSeq_trace_sub (env : Env) :
    ∀ (evs : List Ev), ∀ e ∈ (runSeq env evs).trace, e ∈ evs := by
  intro evs
  induction evs with
  | nil => intro e he; exact absurd he (by simp [runSeq_nil])
  | cons ev es ih =>
    intro e he
    cases ev with
    | cmd c =>
      rw [runSeq_cmd] at he
      by_cases hs : env.status none c = 0
      · rw [if_pos hs] at he
        rcases List.mem_cons.mp he with rfl | he
        · exact List.mem_cons_self _ _
        · exact List.mem_cons_of_mem _ (ih e he)
      · rw [if_neg hs] at he
        have h1 : e = Ev.cmd c := by simpa using he
        rw [h1]
        exact List.mem_cons_self _ _
    | log s =>
      rw [runSeq_log] at he
      rcases List.mem_cons.mp he with rfl | he
      · exact List.mem_cons_self _ _
      · exact List.mem_cons_of_mem _ (ih e he)
    | writeFile p t =>
      rw [runSeq_writeFile] at he
      rcases List.mem_cons.mp he with rfl | he
      · exact List.mem_cons_self _ _
      · exact List.mem_cons_of_mem _ (ih e he)

theorem runSeq_ok_trace (env : Env) :
    ∀ (evs : List Ev), (runSeq env evs).result = .ok () →
    (runSeq env evs).trace = evs := by
  intro evs
  induction evs with
  | nil => intro _; rfl
  | cons ev es ih =>
    intro h
    cases ev with
    | cmd c =>
      rw [runSeq_cmd] at h ⊢
      by_cases hs : env.status none c = 0
      · rw [if_pos hs] at h ⊢
        simpa using ih h
      · rw [if_neg hs] at h
        exact absurd h (by simp)
    | log s =>
      rw [runSeq_log] at h ⊢
      simpa using ih h
    | writeFile p t =>
      rw [runSeq_writeFile] at h ⊢
      simpa using ih h

namespace SemverChecks

theorem pyContains_iff (s : String) (c : Char) :
    pyContains s c = true ↔ c ∈ s.data := by
  simp [pyContains]

/-- Claim C10 (counterexample): on the input `"a#b#c@d"`, which contains
both `'#'` and `'@'`, `parse_package_id` returns `"b"` — the segment between
the first and second `'#'` — and not the substring between the first `'#'`
and the subsequent `'@'` (which is `"b#c"`), so the claim as stated is
false. -/
theorem parse_package_id_c10_counterexample :
    pyContains "a#b#c@d" '#' = true ∧ pyContains "a#b#c@d" '@' = true ∧
    parse_package_id "a#b#c@d" = .ok "b" ∧
    betweenHashAndAt "a#b#c@d" = "b#c" ∧
    parse_package_id "a#b#c@d" ≠ .ok (betweenHashAndAt "a#b#c@d") := by
  have h1 : parse_package_id "a#b#c@d" = .ok "b" := rfl
  have h2 : betweenHashAndAt "a#b#c@d" = "b#c" := rfl
  refine ⟨by decide, by decide, h1, h2, ?_⟩
  intro h
  rw [h1, h2] at h
  exact absurd (Except.ok.inj h) (by decide)

/-- Claim C10 (amended): for inputs containing both `'#'` and `'@'`,
`parse_package_id` returns the segment strictly between the first `'#'` and
the next `'#'` (or the end of the string), truncated at its first `'@'`;
for inputs containing `'#'` but no `'@'`, the segment after the last `'/'`
truncated at its first `'#'`; and for inputs with no `'#'` at all it raises
the "unknown format" exception and never returns a value. -/
theorem parse_package_id_c10_amended (id : String) :
    (pyContains id '#' = true → pyContains id '@' = true →
      parse_package_id id =
        .ok ⟨(((id.data.dropWhile (· ≠ '#')).tail).takeWhile (· ≠ '#')).takeWhile
          (· ≠ '@')⟩) ∧
    (pyContains id '#' = true → pyContains id '@' = false →
      parse_package_id id = .ok ⟨(afterLast '/' id.data).takeWhile (· ≠ '#')⟩) ∧
    (pyContains id '#' = false → parse_package_id id = .error "unknown format") := by
  refine ⟨?_, ?_, ?_⟩
  · intro h1 h2
    have hmem : '#' ∈ id.data := (pyContains_iff id '#').1 h1
    simp only [parse_package_id, h1, h2, Bool.and_self, if_true]
    rw [pySplit_getD_one '#' id.data hmem, getD_zero_headD, pySplit_headD]
  · intro h1 h2
    simp only [parse_package_id, h1, h2, Bool.and_false, Bool.false_eq_true,
      if_false, if_true]
    rw [pySplit_getLastD, getD_zero_headD, pySplit_headD]
  · intro h1
    simp only [parse_package_id, h1, Bool.false_and, Bool.false_eq_true, if_false]

/-- Witness for the amended C10 theorem at the two package-id formats
exercised by the script's own self-test. -/
theorem parse_package_id_c10_amended_witness :
    parse_package_id
      "file:///Users/rcoh/code/smithy-rs-ci/smithy-rs/tmp-codegen-diff/aws-sdk/sdk/s3#aws-sdk-s3@0.0.0-local" =
      .ok "aws-sdk-s3" ∧
    parse_package_id
      "file:///Users/rcoh/code/smithy-rs-ci/smithy-rs/tmp-codegen-diff/aws-sdk/sdk/aws-smithy-runtime-api#0.56.1" =
      .ok "aws-smithy-runtime-api" := by
  constructor
  · rw [(parse_package_id_c10_amended _).1 (by decide) (by decide)]
    rfl
  · rw [(parse_package_id_c10_amended _).2.1 (by decide) (by decide)]
    rfl

end SemverChecks

/-- Claim C6: `diff_link` with no diff location returns the empty-diff text
unmodified; with any location it returns the two-link composite markdown
string whose primary and alternate CDN URLs are built from the given
locations (a missing alternate location renders as Python's `None`); and a
concrete instance contains exactly two occurrences of the CDN URL. -/
theorem diff_link_c6 :
    (∀ (t e a : String) (al : Option String), diff_link t e none a al = e) ∧
    (∀ (t e loc a : String) (al : Option String),
      diff_link t e (some loc) a al =
        "[" ++ t ++ "](" ++ CDN_URL ++ "/codegen-diff/" ++ loc ++ ") ([" ++ a ++
        "](" ++ CDN_URL ++ "/codegen-diff/" ++ pyStrOpt al ++ "))") ∧
    countSub CDN_URL.data
      (diff_link "AWS SDK" "No codegen difference in the AWS SDK"
        (some "b/h/aws-sdk/index.html")
        "ignoring whitespace" (some "b/h/aws-sdk-ignore-whitespace/index.html")).data
      = 2 := by
  refine ⟨fun t e a al => rfl, fun t e loc a al => rfl, by decide⟩

/-- Claim C8: for every revision and configured target set, the command
sequence of `generate_and_commit_generated_code` ends with the forced add of
the entire output root (`git add -f tmp-codegen-diff`) followed by the bot
commit; the commit command carries the fixed bot author configuration and
ends with `--allow-empty` (so a revision with no artifact changes still
yields a commit); and when every command succeeds the executed trace is
exactly that sequence, ending with the add and the commit on the current
branch. -/
theorem generate_and_commit_c8 (env : Env) (revision_sha : String)
    (targets : Option (List String)) :
    (∃ pre, gcCmds revision_sha (pyOrList targets defaultTargets) =
        pre ++ [gitAddCmd, commitCmd revision_sha]) ∧
    gitAddCmd = "git add -f tmp-codegen-diff" ∧
    (∃ l, (commitCmd revision_sha).data = l ++ " --allow-empty".data) ∧
    hasPre commitPre (commitCmd revision_sha) = true ∧
    commitPre =
      "git -c \x27user.name=GitHub Action (generated code preview)\x27 -c \x27user.name=GitHub Action (generated code preview)\x27 -c \x27user.email=generated-code-action@github.com\x27 commit --no-verify -m \x27Generated code for " ∧
    ((∀ c ∈ gcCmds revision_sha (pyOrList targets defaultTargets),
        env.status none c = 0) →
      (generate_and_commit_generated_code env revision_sha targets).trace =
        (gcCmds revision_sha (pyOrList targets defaultTargets)).map Ev.cmd ∧
      (generate_and_commit_generated_code env revision_sha targets).result =
        Outcome.ok ()) := by
  refine ⟨⟨_, rfl⟩, rfl, ?_, hasPre_append _ _ _ (hasPre_self _), by decide, ?_⟩
  · refine ⟨commitPre.data ++ (revision_sha.data ++ ['\x27']), ?_⟩
    show (commitPre ++ (revision_sha ++ "\x27 --allow-empty")).data = _
    rw [String.data_append, String.data_append]
    have hsplit : ("\x27 --allow-empty" : String).data =
        '\x27' :: (" --allow-empty" : String).data := rfl
    rw [hsplit]
    simp [List.append_assoc]
  · intro h
    have h2 : ∀ c, Ev.cmd c ∈ (gcCmds revision_sha (pyOrList targets defaultTargets)).map
        Ev.cmd → env.status none c = 0 := by
      intro c hc
      simp only [List.mem_map] at hc
      obtain ⟨a, ha, hEq⟩ := hc
      injection hEq with h3
      subst h3
      exact h a ha
    unfold generate_and_commit_generated_code
    rw [runSeq_ok env _ h2]
    exact ⟨rfl, rfl⟩

theorem runSeq_result_cases (env : Env) :
    ∀ (evs : List Ev), (runSeq env evs).result = .ok () ∨
      ∃ c, (runSeq env evs).result = .raised c := by
  intro evs
  induction evs with
  | nil => exact Or.inl rfl
  | cons ev es ih =>
    cases ev with
    | cmd c =>
      rw [runSeq_cmd]
      by_cases hs : env.status none c = 0
      · rw [if_pos hs]
        exact ih
      · rw [if_neg hs]
        exact Or.inr ⟨c, rfl⟩
    | log s =>
      rw [runSeq_log]
      exact ih
    | writeFile p t =>
      rw [runSeq_writeFile]
      exact ih

theorem bind_emptyk_trace {α : Type} (r : Res Unit) (v : α) :
    (Res.bind r (fun _ => (⟨[], .ok v⟩ : Res α))).trace = r.trace := by
  unfold Res.bind
  cases hres : r.result <;> simp

theorem dashB_mem_tokens (pre : String) (preInit : List Char) (path : String)
    (hpre : pre.data = preInit ++ [' ']) (hsp : ' ' ∉ path.data)
    (hpath : path.data ≠ ['-', 'b']) :
    (['-','b'] ∈ shlexTokens (pre ++ path) ↔ ['-','b'] ∈ pySplit ' ' preInit) := by
  unfold shlexTokens
  rw [String.data_append, hpre, List.append_assoc]
  have hshape : preInit ++ ([' '] ++ path.data) = preInit ++ ' ' :: path.data := rfl
  rw [hshape, pySplit_append, pySplit_of_not_mem ' ' path.data hsp,
    List.filter_append]
  simp only [List.mem_append, List.mem_filter]
  constructor
  · intro h
    rcases h with h | h
    · exact h.1
    · have h2 : (['-','b'] : List Char) = path.data := by simpa using h.1
      exact absurd h2.symm hpath
  · intro h
    exact Or.inl ⟨h, by decide⟩

theorem make_diff_eq_empty (env : Env)
    (title path_to_diff base_commit_sha head_commit_sha suffix : String)
    (whitespace : Bool)
    (hq : env.status none (quietDiffCmd path_to_diff whitespace) = 0) :
    make_diff env title path_to_diff base_commit_sha head_commit_sha suffix whitespace =
      ⟨[Ev.cmd (quietDiffCmd path_to_diff whitespace),
        Ev.log ("No diff output for " ++ base_commit_sha ++ ".." ++ head_commit_sha ++
          " (" ++ suffix ++ ")")], .ok none⟩ := by
  simp [make_diff, getCmdStatus, Res.bind, hq]

theorem make_diff_eq_nonempty (env : Env)
    (title path_to_diff base_commit_sha head_commit_sha suffix : String)
    (whitespace : Bool)
    (hq : ¬ env.status none (quietDiffCmd path_to_diff whitespace) = 0) :
    make_diff env title path_to_diff base_commit_sha head_commit_sha suffix whitespace =
      ⟨Ev.cmd (quietDiffCmd path_to_diff whitespace) ::
        (runSeq env (diffRenderEvs title path_to_diff base_commit_sha head_commit_sha
          suffix whitespace)).trace,
       (Res.bind (runSeq env (diffRenderEvs title path_to_diff base_commit_sha
          head_commit_sha suffix whitespace))
         (fun _ => ⟨[], .ok (some (base_commit_sha ++ "/" ++ head_commit_sha ++ "/" ++
           suffix ++ "/index.html"))⟩ : Unit → Res (Option String))).result⟩ := by
  have hstep : make_diff env title path_to_diff base_commit_sha head_commit_sha suffix
      whitespace =
      ⟨[Ev.cmd (quietDiffCmd path_to_diff whitespace)] ++
        (if env.status none (quietDiffCmd path_to_diff whitespace) = 0 then
           (⟨[Ev.log ("No diff output for " ++ base_commit_sha ++ ".." ++ head_commit_sha ++
             " (" ++ suffix ++ ")")], .ok none⟩ : Res (Option String))
         else
           Res.bind (runSeq env (diffRenderEvs title path_to_diff base_commit_sha
             head_commit_sha suffix whitespace))
             (fun _ => ⟨[], .ok (some (base_commit_sha ++ "/" ++ head_commit_sha ++ "/" ++
               suffix ++ "/index.html"))⟩)).trace,
       (if env.status none (quietDiffCmd path_to_diff whitespace) = 0 then
           (⟨[Ev.log ("No diff output for " ++ base_commit_sha ++ ".." ++ head_commit_sha ++
             " (" ++ suffix ++ ")")], .ok none⟩ : Res (Option String))
         else
           Res.bind (runSeq env (diffRenderEvs title path_to_diff base_commit_sha
             head_commit_sha suffix whitespace))
             (fun _ => ⟨[], .ok (some (base_commit_sha ++ "/" ++ head_commit_sha ++ "/" ++
               suffix ++ "/index.html"))⟩)).result⟩ := rfl
  rw [hstep]
  simp only [if_neg hq]
  rw [bind_emptyk_trace]
  rfl

theorem make_diff_result_ok (env : Env)
    (title path_to_diff base_commit_sha head_commit_sha suffix : String)
    (whitespace : Bool) (v : Option String)
    (hres : (make_diff env title path_to_diff base_commit_sha head_commit_sha suffix
      whitespace).result = .ok v) :
    v = make_diff_value env path_to_diff base_commit_sha head_commit_sha suffix
      whitespace := by
  by_cases hq : env.status none (quietDiffCmd path_to_diff whitespace) = 0
  · rw [make_diff_eq_empty env title path_to_diff base_commit_sha head_commit_sha suffix
      whitespace hq] at hres
    have hv : none = v := Outcome.ok.inj hres
    rw [← hv, make_diff_value, if_pos hq]
  · rw [make_diff_eq_nonempty env title path_to_diff base_commit_sha head_commit_sha suffix
      whitespace hq] at hres
    rcases runSeq_result_cases env (diffRenderEvs title path_to_diff base_commit_sha
      head_commit_sha suffix whitespace) with hok | ⟨c, hraised⟩
    · simp only [Res.bind, hok] at hres
      have hv := Outcome.ok.inj hres
      rw [← hv, make_diff_value, if_neg hq]
    · simp only [Res.bind, hraised] at hres
      exact absurd hres (by simp)

theorem dashB_quietDiffCmd (path : String) (hpath : path.data ≠ ['-','b'])
    (hsp : ' ' ∉ path.data) (ws : Bool) :
    (['-','b'] ∈ shlexTokens (quietDiffCmd path ws) ↔ ws = false) := by
  cases ws
  · have hshape : quietDiffCmd path false =
        "git diff --quiet -b __tmp-localonly-base __tmp-localonly-head -- " ++ path := rfl
    rw [hshape, dashB_mem_tokens _
      ("git diff --quiet -b __tmp-localonly-base __tmp-localonly-head --" : String).data
      path (by decide) hsp hpath]
    decide
  · have hshape : quietDiffCmd path true =
        "git diff --quiet  __tmp-localonly-base __tmp-localonly-head -- " ++ path := rfl
    rw [hshape, dashB_mem_tokens _
      ("git diff --quiet  __tmp-localonly-base __tmp-localonly-head --" : String).data
      path (by decide) hsp hpath]
    decide

theorem dashB_outputDiffCmd (path : String) (hpath : path.data ≠ ['-','b'])
    (hsp : ' ' ∉ path.data) (ws : Bool) :
    (['-','b'] ∈ shlexTokens (outputDiffCmd path ws) ↔ ws = false) := by
  cases ws
  · have hshape : outputDiffCmd path false =
        "git diff --output=codegen-diff.txt -U30 -b __tmp-localonly-base __tmp-localonly-head -- "
          ++ path := rfl
    rw [hshape, dashB_mem_tokens _
      ("git diff --output=codegen-diff.txt -U30 -b __tmp-localonly-base __tmp-localonly-head --" : String).data
      path (by decide) hsp hpath]
    decide
  · have hshape : outputDiffCmd path true =
        "git diff --output=codegen-diff.txt -U30  __tmp-localonly-base __tmp-localonly-head -- "
          ++ path := rfl
    rw [hshape, dashB_mem_tokens _
      ("git diff --output=codegen-diff.txt -U30  __tmp-localonly-base __tmp-localonly-head --" : String).data
      path (by decide) hsp hpath]
    decide

/-- Claim C7: `make_diff` returns `None` exactly when the `git diff --quiet`
probe between the two orchestration branches over the path reports an empty
diff; when the diff is non-empty (and the rendering commands succeed) it
returns the relative path `<base>/<head>/<suffix>/index.html`; and every
`git diff` invocation it issues carries the `-b` flag as a token precisely
when the whitespace parameter is false. -/
theorem make_diff_c7 (env : Env)
    (title path_to_diff base_commit_sha head_commit_sha suffix : String)
    (whitespace : Bool) :
    ((make_diff env title path_to_diff base_commit_sha head_commit_sha suffix
        whitespace).result = .ok none ↔
      env.status none (quietDiffCmd path_to_diff whitespace) = 0) ∧
    (¬ env.status none (quietDiffCmd path_to_diff whitespace) = 0 →
      (∀ c, Ev.cmd c ∈ diffRenderEvs title path_to_diff base_commit_sha head_commit_sha
          suffix whitespace → env.status none c = 0) →
      (make_diff env title path_to_diff base_commit_sha head_commit_sha suffix
        whitespace).result =
        .ok (some (base_commit_sha ++ "/" ++ head_commit_sha ++ "/" ++ suffix ++
          "/index.html"))) ∧
    (path_to_diff.data ≠ ['-', 'b'] → ' ' ∉ path_to_diff.data →
      ∀ s, Ev.cmd s ∈ (make_diff env title path_to_diff base_commit_sha head_commit_sha
          suffix whitespace).trace →
        hasPre "git diff" s = true →
        (['-','b'] ∈ shlexTokens s ↔ whitespace = false)) := by
  refine ⟨?_, ?_, ?_⟩
  · by_cases hq : env.status none (quietDiffCmd path_to_diff whitespace) = 0
    · rw [make_diff_eq_empty env title path_to_diff base_commit_sha head_commit_sha
        suffix whitespace hq]
      simp [hq]
    · rw [make_diff_eq_nonempty env title path_to_diff base_commit_sha head_commit_sha
        suffix whitespace hq]
      rcases runSeq_result_cases env (diffRenderEvs title path_to_diff base_commit_sha
        head_commit_sha suffix whitespace) with hok | ⟨c, hraised⟩
      · simp only [Res.bind, hok]
        simp [hq]
      · simp only [Res.bind, hraised]
        simp [hq]
  · intro hq hall
    rw [make_diff_eq_nonempty env title path_to_diff base_commit_sha head_commit_sha
      suffix whitespace hq, runSeq_ok env _ hall]
    rfl
  · intro hpath hsp s hs hpre
    by_cases hq : env.status none (quietDiffCmd path_to_diff whitespace) = 0
    · rw [make_diff_eq_empty env title path_to_diff base_commit_sha head_commit_sha
        suffix whitespace hq] at hs
      simp only [List.mem_cons, List.not_mem_nil, or_false] at hs
      rcases hs with hs | hs
      · injection hs with h2
        subst h2
        exact dashB_quietDiffCmd path_to_diff hpath hsp whitespace
      · simp at hs
    · rw [make_diff_eq_nonempty env title path_to_diff base_commit_sha head_commit_sha
        suffix whitespace hq] at hs
      rcases List.mem_cons.mp hs with hs2 | hs2
      · injection hs2 with h2
        subst h2
        exact dashB_quietDiffCmd path_to_diff hpath hsp whitespace
      · have hs3 := runSeq_trace_sub env _ _ hs2
        simp only [diffRenderEvs, List.mem_cons, List.not_mem_nil, or_false] at hs3
        rcases hs3 with h2 | h2 | h2 | h2
        · injection h2 with h3
          subst h3
          have hfalse : hasPre "git diff" ("mkdir -p " ++ (OUTPUT_PATH ++ "/" ++
              (base_commit_sha ++ "/" ++ head_commit_sha ++ "/" ++ suffix))) = false :=
            hasPre_false_head _ _ 'g' 'm' _ _ rfl
              (data_head_of_append "mkdir -p " _ 'm' _ rfl) (by decide)
          exact absurd hpre (by simp [hfalse])
        · injection h2 with h3
          subst h3
          exact dashB_outputDiffCmd path_to_diff hpath hsp whitespace
        · simp at h2
        · injection h2 with h3
          subst h3
          have hfalse : hasPre "git diff" (difftagsCmd
              (OUTPUT_PATH ++ "/" ++ (base_commit_sha ++ "/" ++ head_commit_sha ++ "/" ++
                suffix)) title
              ("rev. " ++ head_commit_sha ++ " " ++
                (if whitespace then "" else "(ignoring whitespace)"))) = false :=
            hasPre_false_head _ _ 'g' 'd' _ _ rfl
              (data_head_of_append "difftags --output-dir " _ 'd' _ rfl) (by decide)
          exact absurd hpre (by simp [hfalse])

/-- Witness for C7 at a concrete oracle with a non-empty diff: the rendered
page path is returned, and the whitespace-insensitive probe command carries
the `-b` token. -/
theorem make_diff_c7_witness :
    (make_diff envAllDiffs "AWS SDK" (OUTPUT_PATH ++ "/aws-sdk") "b" "h" "aws-sdk"
        true).result =
      .ok (some ("b" ++ "/" ++ "h" ++ "/" ++ "aws-sdk" ++ "/index.html")) ∧
    (['-','b'] ∈ shlexTokens (quietDiffCmd (OUTPUT_PATH ++ "/aws-sdk") false) ↔
      (false = false)) := by
  constructor
  · refine (make_diff_c7 envAllDiffs "AWS SDK" (OUTPUT_PATH ++ "/aws-sdk") "b" "h"
      "aws-sdk" true).2.1 (by decide) ?_
    intro c hc
    simp only [diffRenderEvs, List.mem_cons, List.not_mem_nil, or_false] at hc
    rcases hc with h | h | h | h
    · injection h with h2
      subst h2
      decide
    · injection h with h2
      subst h2
      decide
    · simp at h
    · injection h with h2
      subst h2
      decide
  · exact (make_diff_c7 envAllDiffs "AWS SDK" (OUTPUT_PATH ++ "/aws-sdk") "b" "h"
      "aws-sdk-ignore-whitespace" false).2.2 (by decide) (by decide)
      (quietDiffCmd (OUTPUT_PATH ++ "/aws-sdk") false) (by decide) (by decide)

theorem mem_ite_nil {α : Type} (P : Prop) [Decidable P] (l : List α) (x : α)
    (h : x ∈ (if P then l else [])) : x ∈ l ∧ P := by
  split at h
  · exact ⟨h, by assumption⟩
  · exact absurd h (List.not_mem_nil x)

theorem stubs_ne_clean (ts : List String) : ¬ stubsCmd = cleanTasksCmd ts :=
  fun h => gradlewTasks_ne ":clean"
    "codegen-server-test:codegen-server-test-python:stubs" ts
    (by decide) (fun l => no_append_eq _ _ (by decide) l) h.symm

theorem stubs_ne_assemble (ts : List String) : ¬ stubsCmd = assembleTasksCmd ts :=
  fun h => gradlewTasks_ne ":assemble"
    "codegen-server-test:codegen-server-test-python:stubs" ts
    (by decide) (fun l => no_append_eq _ _ (by decide) l) h.symm

theorem tsStubs_ne_clean (ts : List String) : ¬ tsStubsCmd = cleanTasksCmd ts :=
  fun h => gradlewTasks_ne ":clean"
    "codegen-server-test:codegen-server-test-typescript:stubs" ts
    (by decide) (fun l => no_append_eq _ _ (by decide) l) h.symm

theorem tsStubs_ne_assemble (ts : List String) : ¬ tsStubsCmd = assembleTasksCmd ts :=
  fun h => gradlewTasks_ne ":assemble"
    "codegen-server-test:codegen-server-test-typescript:stubs" ts
    (by decide) (fun l => no_append_eq _ _ (by decide) l) h.symm

theorem stubs_ne_commit (rev : String) : ¬ stubsCmd = commitCmd rev :=
  fun h => strNeR commitPre _ stubsCmd (by decide) h.symm

theorem tsStubs_ne_commit (rev : String) : ¬ tsStubsCmd = commitCmd rev :=
  fun h => strNeR commitPre _ tsStubsCmd (by decide) h.symm

theorem mvPython_ne_commit (rev : String) : ¬ mvPythonCmd = commitCmd rev :=
  fun h => strNeR commitPre _ mvPythonCmd (by decide) h.symm

theorem mvTypescript_ne_commit (rev : String) : ¬ mvTypescriptCmd = commitCmd rev :=
  fun h => strNeR commitPre _ mvTypescriptCmd (by decide) h.symm

theorem mvPython_ne_clean (ts : List String) : ¬ mvPythonCmd = cleanTasksCmd ts :=
  fun h => strNeR "./gradlew --rerun-tasks " _ mvPythonCmd (by decide) h.symm

theorem mvPython_ne_assemble (ts : List String) : ¬ mvPythonCmd = assembleTasksCmd ts :=
  fun h => strNeR "./gradlew --rerun-tasks " _ mvPythonCmd (by decide) h.symm

theorem mvTypescript_ne_clean (ts : List String) : ¬ mvTypescriptCmd = cleanTasksCmd ts :=
  fun h => strNeR "./gradlew --rerun-tasks " _ mvTypescriptCmd (by decide) h.symm

theorem mvTypescript_ne_assemble (ts : List String) :
    ¬ mvTypescriptCmd = assembleTasksCmd ts :=
  fun h => strNeR "./gradlew --rerun-tasks " _ mvTypescriptCmd (by decide) h.symm

/-- Any command of `gcCmds` that is not one of the fixed concrete commands,
the clean/assemble gradle tasks, or the bot commit, belongs to the
server-test block — which is present exactly when `codegen-server-test` is
in the target list. -/
theorem mem_gcCmds_server_block (rev : String) (ts : List String) (x : String)
    (hclean : ¬ x = cleanTasksCmd ts) (hassemble : ¬ x = assembleTasksCmd ts)
    (hcommit : ¬ x = commitCmd rev)
    (hconc : x ∉ (["rm -rf aws/sdk/build", "rm -rf " ++ OUTPUT_PATH,
      "mkdir " ++ OUTPUT_PATH, mvSdkCmd, mvTargetCmd target_codegen_client,
      "rm -f " ++ OUTPUT_PATH ++ "/aws-sdk/versions.toml",
      "rm -rf " ++ OUTPUT_PATH ++ "/codegen-client-test/source",
      findCleanupCmd "codegen-client-test",
      "rm -rf " ++ OUTPUT_PATH ++ "/codegen-server-test/source",
      "rm -rf " ++ OUTPUT_PATH ++ "/codegen-server-test-python/source",
      "rm -rf " ++ OUTPUT_PATH ++ "/codegen-server-test-typescript/source",
      findCleanupCmd "codegen-server-test",
      findCleanupCmd "codegen-server-test-python",
      findCleanupCmd "codegen-server-test-typescript", gitAddCmd] : List String))
    (h : x ∈ gcCmds rev ts) :
    x ∈ [mvTargetCmd target_codegen_server, stubsCmd, mvPythonCmd, mvTypescriptCmd] ∧
      target_codegen_server ∈ ts := by
  rcases List.mem_append.mp h with h | h
  · rcases List.mem_append.mp h with h | h
    · rcases List.mem_append.mp h with h | h
      · rcases List.mem_append.mp h with h | h
        · rcases List.mem_append.mp h with h | h
          · simp only [List.mem_cons, List.not_mem_nil, or_false] at h
            rcases h with h | h | h | h | h
            · exact absurd (by rw [h]; simp) hconc
            · exact absurd h hclean
            · exact absurd h hassemble
            · exact absurd (by rw [h]; simp) hconc
            · exact absurd (by rw [h]; simp) hconc
          · have hm := mem_ite_nil _ _ _ h
            have hx : x = mvSdkCmd := by simpa using hm.1
            exact absurd (by rw [hx]; simp) hconc
        · have hm := mem_ite_nil _ _ _ h
          have hx : x = mvTargetCmd target_codegen_client := by simpa using hm.1
          exact absurd (by rw [hx]; simp) hconc
      · exact mem_ite_nil _ _ _ h
    · simp only [List.mem_cons, List.not_mem_nil, or_false] at h
      rcases h with h | h | h | h | h | h | h | h | h
      all_goals exact absurd (by rw [h]; simp) hconc
  · simp only [List.mem_cons, List.not_mem_nil, or_false] at h
    rcases h with h | h
    · exact absurd (by rw [h]; simp) hconc
    · exact absurd h hcommit

/-- The python stub task and the two per-language relocations sit in
`gcCmds` exactly when `codegen-server-test` is a target; the typescript stub
task never occurs. -/
theorem server_block_mem_gcCmds (rev : String) (ts : List String) :
    (stubsCmd ∈ gcCmds rev ts ↔ target_codegen_server ∈ ts) ∧
    (mvPythonCmd ∈ gcCmds rev ts ↔ target_codegen_server ∈ ts) ∧
    (mvTypescriptCmd ∈ gcCmds rev ts ↔ target_codegen_server ∈ ts) ∧
    tsStubsCmd ∉ gcCmds rev ts := by
  have hin : ∀ x : String,
      x ∈ [mvTargetCmd target_codegen_server, stubsCmd, mvPythonCmd, mvTypescriptCmd] →
      target_codegen_server ∈ ts → x ∈ gcCmds rev ts := by
    intro x hx hs
    have hblock : x ∈ (if target_codegen_server ∈ ts then
        [mvTargetCmd target_codegen_server, stubsCmd, mvPythonCmd, mvTypescriptCmd]
      else []) := by
      rw [if_pos hs]
      exact hx
    exact List.mem_append.mpr (Or.inl (List.mem_append.mpr (Or.inl
      (List.mem_append.mpr (Or.inr hblock)))))
  refine ⟨⟨?_, fun hs => hin _ (by simp) hs⟩, ⟨?_, fun hs => hin _ (by simp) hs⟩,
    ⟨?_, fun hs => hin _ (by simp) hs⟩, ?_⟩
  · intro h
    exact (mem_gcCmds_server_block rev ts stubsCmd (stubs_ne_clean ts)
      (stubs_ne_assemble ts) (stubs_ne_commit rev) (by decide) h).2
  · intro h
    exact (mem_gcCmds_server_block rev ts mvPythonCmd (mvPython_ne_clean ts)
      (mvPython_ne_assemble ts) (mvPython_ne_commit rev) (by decide) h).2
  · intro h
    exact (mem_gcCmds_server_block rev ts mvTypescriptCmd (mvTypescript_ne_clean ts)
      (mvTypescript_ne_assemble ts) (mvTypescript_ne_commit rev) (by decide) h).2
  · intro h
    exact absurd (mem_gcCmds_server_block rev ts tsStubsCmd (tsStubs_ne_clean ts)
      (tsStubs_ne_assemble ts) (tsStubs_ne_commit rev) (by decide) h).1 (by decide)

/-- Claim C3 (counterexample): with the configured target set
`[codegen-server-test]`, which contains neither per-language target, the
python stub sub-build is still triggered and both per-language outputs are
still relocated. -/
theorem stub_builds_c3_counterexample :
    target_codegen_server_python ∉ ([target_codegen_server] : List String) ∧
    target_codegen_server_typescript ∉ ([target_codegen_server] : List String) ∧
    Ev.cmd stubsCmd ∈
      (generate_and_commit_generated_code envAllOk "r" (some [target_codegen_server])).trace ∧
    Ev.cmd mvPythonCmd ∈
      (generate_and_commit_generated_code envAllOk "r" (some [target_codegen_server])).trace ∧
    Ev.cmd mvTypescriptCmd ∈
      (generate_and_commit_generated_code envAllOk "r" (some [target_codegen_server])).trace := by
  refine ⟨by decide, by decide, by decide, by decide, by decide⟩

/-- Claim C3 (amended): when the build commands succeed, the python stub
sub-build and the two per-language output relocations appear in the trace
iff `codegen-server-test` is in the effective target set — regardless of
whether the per-language targets themselves are in the set — and no
typescript stub task is ever issued (the typescript output is relocated
without its own stub build). -/
theorem stub_builds_c3_amended (env : Env) (revision_sha : String)
    (targets : Option (List String))
    (h : ∀ c ∈ gcCmds revision_sha (pyOrList targets defaultTargets),
      env.status none c = 0) :
    (Ev.cmd stubsCmd ∈ (generate_and_commit_generated_code env revision_sha targets).trace ↔
      target_codegen_server ∈ pyOrList targets defaultTargets) ∧
    (Ev.cmd mvPythonCmd ∈
        (generate_and_commit_generated_code env revision_sha targets).trace ↔
      target_codegen_server ∈ pyOrList targets defaultTargets) ∧
    (Ev.cmd mvTypescriptCmd ∈
        (generate_and_commit_generated_code env revision_sha targets).trace ↔
      target_codegen_server ∈ pyOrList targets defaultTargets) ∧
    Ev.cmd tsStubsCmd ∉
      (generate_and_commit_generated_code env revision_sha targets).trace := by
  have h2 : ∀ c, Ev.cmd c ∈ (gcCmds revision_sha (pyOrList targets defaultTargets)).map
      Ev.cmd → env.status none c = 0 := by
    intro c hc
    simp only [List.mem_map] at hc
    obtain ⟨a, ha, hEq⟩ := hc
    injection hEq with h3
    subst h3
    exact h a ha
  have htr : (generate_and_commit_generated_code env revision_sha targets).trace =
      (gcCmds revision_sha (pyOrList targets defaultTargets)).map Ev.cmd := by
    unfold generate_and_commit_generated_code
    rw [runSeq_ok env _ h2]
  have hmm : ∀ x : String,
      Ev.cmd x ∈ (gcCmds revision_sha (pyOrList targets defaultTargets)).map Ev.cmd ↔
      x ∈ gcCmds revision_sha (pyOrList targets defaultTargets) := by
    intro x
    simp
  rw [htr]
  simp only [hmm]
  exact server_block_mem_gcCmds revision_sha (pyOrList targets defaultTargets)

/-- Witness for the amended C3 theorem: under the all-success oracle with
the default target set, the stub build is present and no typescript stub
task occurs. -/
theorem stub_builds_c3_amended_witness :
    Ev.cmd stubsCmd ∈ (generate_and_commit_generated_code envAllOk "r" none).trace ∧
    Ev.cmd tsStubsCmd ∉ (generate_and_commit_generated_code envAllOk "r" none).trace := by
  have h := stub_builds_c3_amended envAllOk "r" none (fun c _ => rfl)
  exact ⟨h.1.mpr (by decide), h.2.2.2⟩

/-- Claim C4: when the orchestrator's working tree is dirty, `main` exits
with status 1 after the diagnostic, having issued only the rev-parse and the
clean-tree probe — no branch-creating `git checkout` command is ever
issued. -/
theorem main_dirty_tree_c4 (env : Env) (argv : List String)
    (hargv : argv.length = 3)
    (hrp : env.status none "git rev-parse HEAD" = 0)
    (hdirty : env.status none "git diff --quiet" ≠ 0) :
    (CodegenDiffRevisions.main env argv).result = .exited 1 ∧
    (CodegenDiffRevisions.main env argv).trace =
      [Ev.cmd "git rev-parse HEAD", Ev.cmd "git diff --quiet",
       Ev.log "working tree is not clean. aborting"] ∧
    ∀ s, Ev.cmd s ∈ (CodegenDiffRevisions.main env argv).trace →
      hasPre "git checkout" s = false := by
  have hmain : CodegenDiffRevisions.main env argv =
      ⟨[Ev.cmd "git rev-parse HEAD", Ev.cmd "git diff --quiet",
        Ev.log "working tree is not clean. aborting"], .exited 1⟩ := by
    unfold CodegenDiffRevisions.main
    rw [if_neg (by simp [hargv])]
    simp only [getCmdOutput, getCmdStatus, if_pos hrp, Res.bind, if_pos hdirty]
    rfl
  rw [hmain]
  refine ⟨rfl, rfl, ?_⟩
  intro s hs
  simp only [List.mem_cons, List.not_mem_nil, or_false] at hs
  rcases hs with hs | hs | hs
  · injection hs with h2
    subst h2
    decide
  · injection hs with h2
    subst h2
    decide
  · simp at hs

/-- Witness for C4 at a concrete dirty-tree oracle. -/
theorem main_dirty_tree_c4_witness :
    (CodegenDiffRevisions.main envDirty ["codegen-diff-revisions.py", ".", "base"]).result =
      .exited 1 ∧
    (CodegenDiffRevisions.main envDirty ["codegen-diff-revisions.py", ".", "base"]).trace =
      [Ev.cmd "git rev-parse HEAD", Ev.cmd "git diff --quiet",
       Ev.log "working tree is not clean. aborting"] := by
  have h := main_dirty_tree_c4 envDirty ["codegen-diff-revisions.py", ".", "base"]
    rfl rfl (by decide)
  exact ⟨h.1, h.2.1⟩

/-- Claim C2 (counterexample): with the temporary head branch left over from
a previous run (git state `[__tmp-localonly-head]`, statuses per git
checkout semantics), the orchestrator's branch-creation step fails and the
run aborts — the second run of the same script does not succeed, refuting
the claimed overwrite/idempotence for `codegen-diff-revisions.py`. -/
theorem branch_creation_c2_counterexample :
    (CodegenDiffRevisions.main envStaleBranch
      ["codegen-diff-revisions.py", ".", "base"]).result =
      .raised (checkoutNewBranchCmd "h" HEAD_BRANCH_NAME) := by
  decide

/-- Claim C2 (amended): the `checkout_commit_and_generate` helpers of
diff_lib.py and semver-checks.py create their branch with the forcing
`git checkout <rev> -B <branch>`, which per git semantics succeeds whether
or not the branch already exists (idempotent, for any pre-existing branch
set); the orchestrator `main` of codegen-diff-revisions.py instead issues
the non-forcing `git checkout <rev> -b <branch>`, which fails per git
semantics when the head branch is left over from a previous run, aborting
the script. -/
theorem branch_creation_c2_amended :
    (∀ (env : Env) (rev branch : String) (targets : Option (List String))
      (B : List String),
      env.docker ≠ some "1" →
      env.status none (checkoutForceBranchCmd rev branch) =
        gitCheckoutForceBranchStatus B →
      (∀ c ∈ gcCmds rev (pyOrList targets defaultTargets), env.status none c = 0) →
      (checkout_commit_and_generate env rev branch targets).result = .ok ()) ∧
    (∀ (env : Env) (rev branch root : String) (B : List String),
      env.docker ≠ some "1" →
      env.status none (checkoutForceBranchCmd rev branch) =
        gitCheckoutForceBranchStatus B →
      (∀ c ∈ SemverChecks.genCmds root, env.status none c = 0) →
      env.status none (commitCmd rev) = 0 →
      (SemverChecks.checkout_commit_and_generate env rev branch root).result = .ok ()) ∧
    (∀ (env : Env) (argv : List String) (B : List String),
      argv.length = 3 →
      env.status none "git rev-parse HEAD" = 0 →
      env.status none "git diff --quiet" = 0 →
      env.docker ≠ some "1" →
      HEAD_BRANCH_NAME ∈ B →
      env.status none (checkoutNewBranchCmd (env.out none "git rev-parse HEAD")
        HEAD_BRANCH_NAME) = gitCheckoutNewBranchStatus B HEAD_BRANCH_NAME →
      (CodegenDiffRevisions.main env argv).result =
        .raised (checkoutNewBranchCmd (env.out none "git rev-parse HEAD")
          HEAD_BRANCH_NAME)) := by
  refine ⟨?_, ?_, ?_⟩
  · intro env rev branch targets B hdocker hcap hall
    have hdock : running_in_docker_build env = false := by
      simp [running_in_docker_build, hdocker]
    have hcap0 : env.status none (checkoutForceBranchCmd rev branch) = 0 := hcap
    unfold checkout_commit_and_generate
    rw [hdock]
    have hpre : ∀ c, Ev.cmd c ∈ (([] : List Ev) ++
        [Ev.log ("Creating temporary branch " ++ branch ++ " with generated code for " ++
          rev), Ev.cmd (checkoutForceBranchCmd rev branch)]) → env.status none c = 0 := by
      intro c hc
      simp only [List.nil_append, List.mem_cons, List.not_mem_nil, or_false] at hc
      rcases hc with hc | hc
      · simp at hc
      · injection hc with h2
        subst h2
        exact hcap0
    rw [if_neg (by simp [hdock])]
    rw [runSeq_ok env _ ?hp]
    case hp =>
      intro c hc
      simp only [List.nil_append, List.mem_cons, List.not_mem_nil, or_false] at hc
      rcases hc with hc | hc
      · simp at hc
      · injection hc with h2
        subst h2
        exact hcap0
    have h2 : ∀ c, Ev.cmd c ∈ (gcCmds rev (pyOrList targets defaultTargets)).map Ev.cmd →
        env.status none c = 0 := by
      intro c hc
      simp only [List.mem_map] at hc
      obtain ⟨a, ha, hEq⟩ := hc
      injection hEq with h3
      subst h3
      exact hall a ha
    unfold generate_and_commit_generated_code
    rw [runSeq_ok env _ h2]
    rfl
  · intro env rev branch root B hdocker hcap hgen hcommit
    have hdock : running_in_docker_build env = false := by
      simp [running_in_docker_build, hdocker]
    have hcap0 : env.status none (checkoutForceBranchCmd rev branch) = 0 := hcap
    have hevs : SemverChecks.ccgEvs env rev branch root =
        [Ev.log ("Creating temporary branch " ++ branch ++ " with generated code for " ++
          rev), Ev.cmd (checkoutForceBranchCmd rev branch)] ++
        (SemverChecks.genCmds root).map Ev.cmd ++ [Ev.cmd (commitCmd rev)] := by
      unfold SemverChecks.ccgEvs
      rw [hdock]
      simp
    unfold SemverChecks.checkout_commit_and_generate
    rw [hevs, runSeq_ok env _ ?hp2]
    case hp2 =>
      intro c hc
      rcases List.mem_append.mp hc with h1 | h1
      · rcases List.mem_append.mp h1 with h2 | h2
        · simp only [List.mem_cons, List.not_mem_nil, or_false] at h2
          rcases h2 with h3 | h3
          · simp at h3
          · injection h3 with h4
            subst h4
            exact hcap0
        · simp only [List.mem_map] at h2
          obtain ⟨a, ha, hEq⟩ := h2
          injection hEq with h4
          subst h4
          exact hgen a ha
      · simp only [List.mem_cons, List.not_mem_nil, or_false] at h1
        injection h1 with h4
        subst h4
        exact hcommit
  · intro env argv B hargv hrp hclean hdocker hmem hstat
    have hdock : running_in_docker_build env = false := by
      simp [running_in_docker_build, hdocker]
    have hstat1 : env.status none (checkoutNewBranchCmd (env.out none "git rev-parse HEAD")
        HEAD_BRANCH_NAME) = 1 := by
      rw [hstat]
      unfold gitCheckoutNewBranchStatus
      rw [if_pos hmem]
    unfold CodegenDiffRevisions.main
    rw [if_neg (by simp [hargv])]
    simp only [getCmdOutput, getCmdStatus, if_pos hrp, Res.bind]
    rw [if_neg (by simp [hclean])]
    rw [hdock]
    rw [if_neg (by simp)]
    simp only [List.nil_append]
    rw [runSeq_log, runSeq_cmd, if_neg (by simp [hstat1])]

/-- Witness for the amended C2 theorem: the forcing helper succeeds under an
all-success oracle (with an arbitrary pre-existing branch set), and the
orchestrator aborts at its non-forcing checkout under the stale-branch
oracle. -/
theorem branch_creation_c2_amended_witness :
    (checkout_commit_and_generate envAllOk "r" "br" none).result = .ok () ∧
    (CodegenDiffRevisions.main envStaleBranch
      ["codegen-diff-revisions.py", ".", "base"]).result =
      .raised (checkoutNewBranchCmd "h" HEAD_BRANCH_NAME) := by
  constructor
  · exact branch_creation_c2_amended.1 envAllOk "r" "br" none [HEAD_BRANCH_NAME]
      (by simp [envAllOk]) rfl (fun c _ => rfl)
  · exact branch_creation_c2_amended.2.2 envStaleBranch
      ["codegen-diff-revisions.py", ".", "base"] [HEAD_BRANCH_NAME] rfl (by decide)
      (by decide) (by simp [envStaleBranch]) (by simp) (by decide)

theorem bind_trace {α β : Type} (r : Res α) (f : α → Res β) :
    ∃ rest, (Res.bind r f).trace = r.trace ++ rest := by
  unfold Res.bind
  cases hres : r.result with
  | ok a => exact ⟨(f a).trace, rfl⟩
  | exited c => exact ⟨[], by simp⟩
  | raised m => exact ⟨[], by simp⟩

theorem trace_prefix_trans {α β : Type} (r : Res α) (f : α → Res β)
    (p rest1 : List Ev) (h : r.trace = p ++ rest1) :
    ∃ rest, (Res.bind r f).trace = p ++ rest := by
  obtain ⟨r2, h2⟩ := bind_trace r f
  exact ⟨rest1 ++ r2, by rw [h2, h, List.append_assoc]⟩

theorem ccg_trace_prefix (env : Env) (rev branch root : String)
    (hdocker : env.docker ≠ some "1") :
    ∃ rest, (SemverChecks.checkout_commit_and_generate env rev branch root).trace =
      [Ev.log ("Creating temporary branch " ++ branch ++ " with generated code for " ++
        rev), Ev.cmd (checkoutForceBranchCmd rev branch)] ++ rest := by
  have hdock : running_in_docker_build env = false := by
    simp [running_in_docker_build, hdocker]
  unfold SemverChecks.checkout_commit_and_generate SemverChecks.ccgEvs
  rw [hdock, if_neg (by simp)]
  simp only [List.nil_append, List.cons_append]
  rw [runSeq_log, runSeq_cmd]
  by_cases hcap : env.status none (checkoutForceBranchCmd rev branch) = 0
  · rw [if_pos hcap]
    exact ⟨_, rfl⟩
  · rw [if_neg hcap]
    exact ⟨[], rfl⟩

theorem semver_main_trace_skip (env : Env) (argv : List String)
    (hargv : argv.length = 3)
    (hrp : env.status none "git rev-parse HEAD" = 0)
    (hclean : env.status none "git diff --quiet" = 0) :
    ∃ rest, (SemverChecks.main env argv true).trace =
      [Ev.cmd "git rev-parse HEAD", Ev.cmd "git diff --quiet",
       Ev.cmd "git checkout current"] ++ rest := by
  have hrw1 : getCmdOutput env none "git rev-parse HEAD" =
      ⟨[Ev.cmd "git rev-parse HEAD"], .ok (0, env.out none "git rev-parse HEAD",
        env.err none "git rev-parse HEAD")⟩ := by
    unfold getCmdOutput
    rw [if_pos hrp]
  have hrw2 : getCmdStatus env "git diff --quiet" =
      ⟨[Ev.cmd "git diff --quiet"], .ok 0⟩ := by
    unfold getCmdStatus
    rw [hclean]
  unfold SemverChecks.main
  rw [if_neg (by simp [hargv]), hrw1, hrw2]
  by_cases hcur : env.status none ("git checkout " ++ SemverChecks.CURRENT_BRANCH) = 0
  · have hrw3 : getCmdOutput env none ("git checkout " ++ SemverChecks.CURRENT_BRANCH) =
        ⟨[Ev.cmd ("git checkout " ++ SemverChecks.CURRENT_BRANCH)],
         .ok (0, env.out none ("git checkout " ++ SemverChecks.CURRENT_BRANCH),
           env.err none ("git checkout " ++ SemverChecks.CURRENT_BRANCH))⟩ := by
      unfold getCmdOutput
      rw [if_pos hcur]
    rw [hrw3]
    exact ⟨_, rfl⟩
  · have hrw3 : getCmdOutput env none ("git checkout " ++ SemverChecks.CURRENT_BRANCH) =
        ⟨[Ev.cmd ("git checkout " ++ SemverChecks.CURRENT_BRANCH)],
         .raised ("git checkout " ++ SemverChecks.CURRENT_BRANCH)⟩ := by
      unfold getCmdOutput
      rw [if_neg hcur]
    rw [hrw3]
    exact ⟨[], rfl⟩

theorem semver_main_trace_noskip (env : Env) (argv : List String)
    (hargv : argv.length = 3)
    (hrp : env.status none "git rev-parse HEAD" = 0)
    (hclean : env.status none "git diff --quiet" = 0)
    (hdocker : env.docker ≠ some "1") :
    ∃ rest, (SemverChecks.main env argv false).trace =
      [Ev.cmd "git rev-parse HEAD", Ev.cmd "git diff --quiet",
       Ev.log ("Creating temporary branch current with generated code for " ++
         env.out none "git rev-parse HEAD"),
       Ev.cmd (checkoutForceBranchCmd (env.out none "git rev-parse HEAD")
         SemverChecks.CURRENT_BRANCH)] ++ rest := by
  have hpre : ("Creating temporary branch " ++ SemverChecks.CURRENT_BRANCH ++
      " with generated code for " ++ env.out none "git rev-parse HEAD") =
      ("Creating temporary branch current with generated code for " ++
        env.out none "git rev-parse HEAD") := rfl
  obtain ⟨r1, hr1⟩ := ccg_trace_prefix env (env.out none "git rev-parse HEAD")
    SemverChecks.CURRENT_BRANCH (argv.getD 1 "") hdocker
  obtain ⟨r2, hr2⟩ := trace_prefix_trans
    (SemverChecks.checkout_commit_and_generate env (env.out none "git rev-parse HEAD")
      SemverChecks.CURRENT_BRANCH (argv.getD 1 ""))
    (fun _ => SemverChecks.checkout_commit_and_generate env (argv.getD 2 "")
      SemverChecks.BASE_BRANCH (argv.getD 1 ""))
    _ r1 hr1
  obtain ⟨r3, hr3⟩ := trace_prefix_trans
    (Res.bind (SemverChecks.checkout_commit_and_generate env
        (env.out none "git rev-parse HEAD") SemverChecks.CURRENT_BRANCH (argv.getD 1 ""))
      (fun _ => SemverChecks.checkout_commit_and_generate env (argv.getD 2 "")
        SemverChecks.BASE_BRANCH (argv.getD 1 "")))
    (fun _ => Res.bind (getCmdOutput env none ("git checkout " ++
        SemverChecks.CURRENT_BRANCH))
      (fun _ => Res.bind (SemverChecks.checkLoop env env.listing [])
        (fun failures => if failures.isEmpty then ⟨[], Outcome.ok ()⟩ else
          ⟨[Ev.log "One or more crates failed semver checks!",
            Ev.log (strJoin "\n" failures)], Outcome.exited 1⟩)))
    _ r2 hr2
  have hrw1 : getCmdOutput env none "git rev-parse HEAD" =
      ⟨[Ev.cmd "git rev-parse HEAD"], .ok (0, env.out none "git rev-parse HEAD",
        env.err none "git rev-parse HEAD")⟩ := by
    unfold getCmdOutput
    rw [if_pos hrp]
  have hrw2 : getCmdStatus env "git diff --quiet" =
      ⟨[Ev.cmd "git diff --quiet"], .ok 0⟩ := by
    unfold getCmdStatus
    rw [hclean]
  unfold SemverChecks.main
  rw [if_neg (by simp [hargv]), hrw1, hrw2]
  refine ⟨r3, ?_⟩
  show Ev.cmd "git rev-parse HEAD" :: Ev.cmd "git diff --quiet" ::
      (Res.bind (Res.bind (SemverChecks.checkout_commit_and_generate env
          (env.out none "git rev-parse HEAD") SemverChecks.CURRENT_BRANCH
          (argv.getD 1 ""))
        (fun _ => SemverChecks.checkout_commit_and_generate env (argv.getD 2 "")
          SemverChecks.BASE_BRANCH (argv.getD 1 "")))
        (fun _ => Res.bind (getCmdOutput env none ("git checkout " ++
            SemverChecks.CURRENT_BRANCH))
          (fun _ => Res.bind (SemverChecks.checkLoop env env.listing [])
            (fun failures => if failures.isEmpty then ⟨[], Outcome.ok ()⟩ else
              ⟨[Ev.log "One or more crates failed semver checks!",
                Ev.log (strJoin "\n" failures)], Outcome.exited 1⟩)))).trace = _
  rw [hr3]
  rfl

/-- Claim C9: `SKIP_GENERATION` causes generation to be skipped for every
set, non-empty value — including `"0"` and `"false"` — and only an unset or
empty-string variable triggers generation; with generation skipped, the
script issues no command at all between the clean-tree probe and
`git checkout current` (in particular no branch creation and no build
invocation), while with generation enabled the first step after the probe
is the checkout-and-generate of the `current` branch. -/
theorem skip_generation_c9 :
    SemverChecks.skipGeneration none = false ∧
    SemverChecks.skipGeneration (some "") = false ∧
    SemverChecks.skipGeneration (some "0") = true ∧
    SemverChecks.skipGeneration (some "false") = true ∧
    (∀ v : Option String, SemverChecks.skipGeneration v = false ↔
      (v = none ∨ v = some "")) ∧
    (∀ (env : Env) (argv : List String),
      ¬ (argv.length > 1 ∧ argv.getD 1 "" = "--self-test") →
      argv.length = 3 →
      SemverChecks.skipGeneration env.skipGenVar = true →
      env.status none "git rev-parse HEAD" = 0 →
      env.status none "git diff --quiet" = 0 →
      ∃ rest, (SemverChecks.scriptEntry env argv).trace =
        [Ev.cmd "git rev-parse HEAD", Ev.cmd "git diff --quiet",
         Ev.cmd "git checkout current"] ++ rest) ∧
    (∀ (env : Env) (argv : List String),
      ¬ (argv.length > 1 ∧ argv.getD 1 "" = "--self-test") →
      argv.length = 3 →
      SemverChecks.skipGeneration env.skipGenVar = false →
      env.status none "git rev-parse HEAD" = 0 →
      env.status none "git diff --quiet" = 0 →
      env.docker ≠ some "1" →
      ∃ rest, (SemverChecks.scriptEntry env argv).trace =
        [Ev.cmd "git rev-parse HEAD", Ev.cmd "git diff --quiet",
         Ev.log ("Creating temporary branch current with generated code for " ++
           env.out none "git rev-parse HEAD"),
         Ev.cmd (checkoutForceBranchCmd (env.out none "git rev-parse HEAD")
           SemverChecks.CURRENT_BRANCH)] ++ rest) := by
  refine ⟨rfl, rfl, rfl, rfl, ?_, ?_, ?_⟩
  · intro v
    cases v with
    | none => simp [SemverChecks.skipGeneration]
    | some s =>
      simp only [SemverChecks.skipGeneration]
      constructor
      · intro h
        right
        have : (s == "") = true := by
          cases hb : (s == "")
          · rw [hb] at h
            simp at h
          · rfl
        exact congrArg some (by simpa using this)
      · intro h
        rcases h with h | h
        · cases h
        · injection h with h2
          subst h2
          rfl
  · intro env argv hself hargv hskip hrp hclean
    unfold SemverChecks.scriptEntry
    rw [if_neg hself, hskip]
    exact semver_main_trace_skip env argv hargv hrp hclean
  · intro env argv hself hargv hskip hrp hclean hdocker
    unfold SemverChecks.scriptEntry
    rw [if_neg hself, hskip]
    exact semver_main_trace_noskip env argv hargv hrp hclean hdocker

/-- Witness for C9: with `SKIP_GENERATION=0` the script's first three
commands are the rev-parse, the clean-tree probe, and `git checkout
current` — no build command in between. -/
theorem skip_generation_c9_witness :
    SemverChecks.skipGeneration envSkip.skipGenVar = true ∧
    (SemverChecks.scriptEntry envSkip ["semver-checks.py", ".", "base"]).trace.take 3 =
      [Ev.cmd "git rev-parse HEAD", Ev.cmd "git diff --quiet",
       Ev.cmd "git checkout current"] := by
  obtain ⟨rest, hrest⟩ := skip_generation_c9.2.2.2.2.2.1 envSkip
    ["semver-checks.py", ".", "base"] (by decide) rfl rfl rfl rfl
  refine ⟨rfl, ?_⟩
  rw [hrest]
  exact List.take_left' rfl

theorem checkCrate_spec (env : Env) (p : String) (fs : List String)
    (hp : p ∉ SemverChecks.deny_list → env.status none (SemverChecks.catFileCmd p) = 0 →
      env.status (some p) "cargo pkgid" = 0 ∧
      ∃ s, SemverChecks.parse_package_id (env.out (some p) "cargo pkgid") =
        Except.ok s) :
    SemverChecks.checkCrate env p fs =
      ⟨SemverChecks.crateEvs env p, .ok (fs ++ SemverChecks.crateFails env p)⟩ := by
  unfold SemverChecks.checkCrate SemverChecks.crateEvs SemverChecks.crateFails
  by_cases hdeny : p ∈ SemverChecks.deny_list
  · simp [Res.bind, hdeny]
  · by_cases hcat : env.status none (SemverChecks.catFileCmd p) = 0
    · obtain ⟨hpk, s, hs⟩ := hp hdeny hcat
      have hpkid : SemverChecks.pkgidOf env p = s := by
        unfold SemverChecks.pkgidOf
        rw [hs]
      by_cases hsv : env.status none (SemverChecks.semverCheckCmd p s) = 0
      · simp [Res.bind, getCmdStatus, getCmdOutput, getCmdOutputNoCheck, hdeny, hcat,
          hpk, hs, hpkid, hsv]
      · by_cases hout : env.out none (SemverChecks.semverCheckCmd p s) = ""
        · simp [Res.bind, getCmdStatus, getCmdOutput, getCmdOutputNoCheck, hdeny, hcat,
            hpk, hs, hpkid, hsv, hout]
        · simp [Res.bind, getCmdStatus, getCmdOutput, getCmdOutputNoCheck, hdeny, hcat,
            hpk, hs, hpkid, hsv, hout]
    · simp [Res.bind, getCmdStatus, hdeny, hcat]

theorem checkLoop_spec (env : Env) (ps : List String)
    (hp : ∀ p ∈ ps, p ∉ SemverChecks.deny_list →
      env.status none (SemverChecks.catFileCmd p) = 0 →
      env.status (some p) "cargo pkgid" = 0 ∧
      ∃ s, SemverChecks.parse_package_id (env.out (some p) "cargo pkgid") =
        Except.ok s) :
    ∀ fs, SemverChecks.checkLoop env ps fs =
      ⟨listFlat (SemverChecks.crateEvs env) ps,
       .ok (fs ++ listFlat (SemverChecks.crateFails env) ps)⟩ := by
  induction ps with
  | nil =>
    intro fs
    simp [SemverChecks.checkLoop, listFlat]
  | cons p ps ih =>
    intro fs
    have hph : p ∉ SemverChecks.deny_list →
        env.status none (SemverChecks.catFileCmd p) = 0 →
        env.status (some p) "cargo pkgid" = 0 ∧
        ∃ s, SemverChecks.parse_package_id (env.out (some p) "cargo pkgid") =
          Except.ok s :=
      hp p (List.mem_cons_self _ _)
    have hrest : ∀ q ∈ ps, q ∉ SemverChecks.deny_list →
        env.status none (SemverChecks.catFileCmd q) = 0 →
        env.status (some q) "cargo pkgid" = 0 ∧
        ∃ s, SemverChecks.parse_package_id (env.out (some q) "cargo pkgid") =
          Except.ok s :=
      fun q hq => hp q (List.mem_cons_of_mem _ hq)
    show Res.bind (SemverChecks.checkCrate env p fs) _ = _
    rw [checkCrate_spec env p fs hph]
    show (⟨SemverChecks.crateEvs env p ++
        (SemverChecks.checkLoop env ps (fs ++ SemverChecks.crateFails env p)).trace,
      (SemverChecks.checkLoop env ps (fs ++ SemverChecks.crateFails env p)).result⟩ :
        Res (List String)) = _
    rw [ih hrest (fs ++ SemverChecks.crateFails env p)]
    simp [listFlat, List.append_assoc]

theorem semver_main_eq (env : Env) (argv : List String)
    (hargv : argv.length = 3)
    (hrp : env.status none "git rev-parse HEAD" = 0)
    (hclean : env.status none "git diff --quiet" = 0)
    (hcur : env.status none ("git checkout " ++ SemverChecks.CURRENT_BRANCH) = 0)
    (hp : ∀ p ∈ env.listing, p ∉ SemverChecks.deny_list →
      env.status none (SemverChecks.catFileCmd p) = 0 →
      env.status (some p) "cargo pkgid" = 0 ∧
      ∃ s, SemverChecks.parse_package_id (env.out (some p) "cargo pkgid") =
        Except.ok s) :
    SemverChecks.main env argv true =
      ⟨[Ev.cmd "git rev-parse HEAD", Ev.cmd "git diff --quiet",
        Ev.cmd ("git checkout " ++ SemverChecks.CURRENT_BRANCH)] ++
        listFlat (SemverChecks.crateEvs env) env.listing ++
        (if (listFlat (SemverChecks.crateFails env) env.listing).isEmpty then []
         else [Ev.log "One or more crates failed semver checks!",
               Ev.log (strJoin "\n" (listFlat (SemverChecks.crateFails env)
                 env.listing))]),
       if (listFlat (SemverChecks.crateFails env) env.listing).isEmpty then .ok ()
       else .exited 1⟩ := by
  have hrw1 : getCmdOutput env none "git rev-parse HEAD" =
      ⟨[Ev.cmd "git rev-parse HEAD"], .ok (0, env.out none "git rev-parse HEAD",
        env.err none "git rev-parse HEAD")⟩ := by
    unfold getCmdOutput
    rw [if_pos hrp]
  have hrw2 : getCmdStatus env "git diff --quiet" =
      ⟨[Ev.cmd "git diff --quiet"], .ok 0⟩ := by
    unfold getCmdStatus
    rw [hclean]
  have hrw3 : getCmdOutput env none ("git checkout " ++ SemverChecks.CURRENT_BRANCH) =
      ⟨[Ev.cmd ("git checkout " ++ SemverChecks.CURRENT_BRANCH)],
       .ok (0, env.out none ("git checkout " ++ SemverChecks.CURRENT_BRANCH),
         env.err none ("git checkout " ++ SemverChecks.CURRENT_BRANCH))⟩ := by
    unfold getCmdOutput
    rw [if_pos hcur]
  unfold SemverChecks.main
  rw [if_neg (by simp [hargv]), hrw1, hrw2, hrw3,
    checkLoop_spec env env.listing hp []]
  by_cases hfl : (listFlat (SemverChecks.crateFails env) env.listing).isEmpty = true
  · simp [Res.bind, hfl]
  · simp [Res.bind, hfl]

theorem listFlat_append_distrib {α β : Type} (f : α → List β) (a b : List α) :
    listFlat f (a ++ b) = listFlat f a ++ listFlat f b := by
  induction a with
  | nil => simp [listFlat]
  | cons x xs ih => simp [listFlat, ih]

theorem filterMap_listFlat (f : Ev → Option String) (g : String → List Ev)
    (ps : List String) :
    (listFlat g ps).filterMap f = listFlat (fun p => (g p).filterMap f) ps := by
  induction ps with
  | nil => simp [listFlat]
  | cons p ps ih => simp [listFlat, List.filterMap_append, ih]

theorem listFlat_ite_single {α β : Type} (c : α → Bool) (h : α → β) (ps : List α) :
    listFlat (fun p => if c p then [h p] else []) ps = (ps.filter c).map h := by
  induction ps with
  | nil => simp [listFlat]
  | cons p ps ih =>
    by_cases hc : c p
    · simp [listFlat, hc, ih]
    · simp [listFlat, hc, ih]

theorem listFlat_eq_nil_iff {α β : Type} (f : α → List β) (ps : List α) :
    listFlat f ps = [] ↔ ∀ p ∈ ps, f p = [] := by
  induction ps with
  | nil => simp [listFlat]
  | cons p ps ih => simp [listFlat, ih]

theorem hasPre_semverCheckCmd (p pk : String) :
    hasPre "cargo semver-checks" (SemverChecks.semverCheckCmd p pk) = true := by
  have hshape : SemverChecks.semverCheckCmd p pk =
      ("cargo semver-checks check-release --baseline-rev base --manifest-path " ++
        (p ++ ("/Cargo.toml -v -p " ++ (pk ++ " --all-features --release-type minor")))) :=
    rfl
  rw [hshape]
  exact hasPre_append _ _ _ (by decide)

theorem semverCmdOf_cmd (s : String) :
    SemverChecks.semverCmdOf (Ev.cmd s) =
      if hasPre "cargo semver-checks" s then some s else none := rfl

theorem semverCmdOf_log (s : String) :
    SemverChecks.semverCmdOf (Ev.log s) = none := rfl

theorem hasPre_catFileCmd_false (p : String) :
    hasPre "cargo semver-checks" (SemverChecks.catFileCmd p) = false := by
  have h1 := data_head_of_append "git cat-file -e base:./" p 'g'
    "it cat-file -e base:./".data rfl
  have h2 := data_head_of_append ("git cat-file -e base:./" ++ p) "/Cargo.toml" 'g'
    ("it cat-file -e base:./".data ++ p.data) h1
  exact hasPre_false_head "cargo semver-checks" (SemverChecks.catFileCmd p) 'c' 'g'
    _ _ rfl h2 (by decide)

theorem semverCmdOf_crateEvs (env : Env) (p : String) :
    (SemverChecks.crateEvs env p).filterMap SemverChecks.semverCmdOf =
      (if !(SemverChecks.deny_list.contains p) &&
          (env.status none (SemverChecks.catFileCmd p) == 0) then
        [SemverChecks.semverCheckCmd p (SemverChecks.pkgidOf env p)]
      else []) := by
  have hpkb : hasPre "cargo semver-checks" "cargo pkgid" = false := by decide
  unfold SemverChecks.crateEvs
  by_cases hdeny : p ∈ SemverChecks.deny_list
  · have hdeny2 : SemverChecks.deny_list.contains p = true := by
      simpa using hdeny
    simp [hdeny, hdeny2, semverCmdOf_log]
  · have hdeny2 : SemverChecks.deny_list.contains p = false := by
      simpa using hdeny
    by_cases hcat2 : env.status none (SemverChecks.catFileCmd p) = 0
    · by_cases hsvst : env.status none (SemverChecks.semverCheckCmd p
          (SemverChecks.pkgidOf env p)) = 0
      · simp [hdeny, hdeny2, hcat2, hsvst, List.filterMap_append, semverCmdOf_cmd,
          semverCmdOf_log, hasPre_catFileCmd_false, hpkb, hasPre_semverCheckCmd]
      · by_cases hout : env.out none (SemverChecks.semverCheckCmd p
            (SemverChecks.pkgidOf env p)) = ""
        · simp [hdeny, hdeny2, hcat2, hsvst, hout, List.filterMap_append,
            semverCmdOf_cmd, semverCmdOf_log, hasPre_catFileCmd_false, hpkb,
            hasPre_semverCheckCmd]
        · simp [hdeny, hdeny2, hcat2, hsvst, hout, List.filterMap_append,
            semverCmdOf_cmd, semverCmdOf_log, hasPre_catFileCmd_false, hpkb,
            hasPre_semverCheckCmd]
    · simp [hdeny, hdeny2, hcat2, List.filterMap_append, semverCmdOf_cmd,
        semverCmdOf_log, hasPre_catFileCmd_false]

theorem semverCmdOf_writeFile (p t : String) :
    SemverChecks.semverCmdOf (Ev.writeFile p t) = none := rfl

theorem listFlat_congr {α β : Type} (f g : α → List β) (l : List α)
    (h : ∀ a ∈ l, f a = g a) : listFlat f l = listFlat g l := by
  induction l with
  | nil => rfl
  | cons a l ih =>
    rw [listFlat, listFlat, h a (List.mem_cons_self a l),
      ih (fun b hb => h b (List.mem_cons_of_mem a hb))]

theorem count_map_inj_on {α β : Type} [DecidableEq α] [DecidableEq β]
    (f : α → β) (P : α → Prop) (hinj : ∀ a b, P a → P b → f a = f b → a = b)
    (l : List α) (hl : ∀ a ∈ l, P a) (x : α) (hx : P x) :
    (l.map f).count (f x) = l.count x := by
  induction l with
  | nil => rfl
  | cons a l ih =>
    have hpa : P a := hl a (List.mem_cons_self a l)
    have hl2 : ∀ b ∈ l, P b := fun b hb => hl b (List.mem_cons_of_mem a hb)
    rw [List.map_cons, List.count_cons, List.count_cons, ih hl2]
    by_cases he : a = x
    · subst he
      simp
    · have hfe : ¬ (f x = f a) := fun hf => he (hinj a x hpa hx hf.symm)
      have hfe2 : ¬ (f a = f x) := fun hf => hfe hf.symm
      have he2 : ¬ (x = a) := fun hxx => he hxx.symm
      simp [he, he2, hfe, hfe2]

theorem count_cmd_filterMap (c : String)
    (hc : hasPre "cargo semver-checks" c = true) :
    ∀ T : List Ev, T.count (Ev.cmd c) =
      (T.filterMap SemverChecks.semverCmdOf).count c := by
  intro T
  induction T with
  | nil => rfl
  | cons e T ih =>
    cases e with
    | cmd s =>
      rw [List.filterMap_cons, semverCmdOf_cmd]
      by_cases hps : hasPre "cargo semver-checks" s = true
      · rw [if_pos hps, List.count_cons, List.count_cons, ih]
        by_cases hsc : s = c
        · subst hsc
          simp
        · have hcs : ¬ (c = s) := fun h => hsc h.symm
          have hec : ¬ (Ev.cmd c = Ev.cmd s) := fun h => hsc (Ev.cmd.inj h).symm
          have hec2 : ¬ (Ev.cmd s = Ev.cmd c) := fun h => hsc (Ev.cmd.inj h)
          simp [hsc, hcs, hec, hec2]
      · rw [if_neg hps, List.count_cons, ih]
        have hsc : ¬ (s = c) := fun h => hps (h ▸ hc)
        have hcs : ¬ (c = s) := fun h => hsc h.symm
        have hec : ¬ (Ev.cmd c = Ev.cmd s) := fun h => hsc (Ev.cmd.inj h).symm
        have hec2 : ¬ (Ev.cmd s = Ev.cmd c) := fun h => hsc (Ev.cmd.inj h)
        simp [hsc, hcs, hec, hec2]
    | log s =>
      rw [List.filterMap_cons, semverCmdOf_log, List.count_cons, ih]
      simp
    | writeFile p t =>
      rw [List.filterMap_cons, semverCmdOf_writeFile, List.count_cons, ih]
      simp

theorem semverCheckCmd_inj (p p' pk pk' : String)
    (hp : '/' ∉ p.data) (hp' : '/' ∉ p'.data)
    (h : SemverChecks.semverCheckCmd p pk = SemverChecks.semverCheckCmd p' pk') :
    p = p' ∧ pk = pk' := by
  have hshape : ∀ q qk : String, SemverChecks.semverCheckCmd q qk =
      "cargo semver-checks check-release --baseline-rev base --manifest-path " ++
      (q ++ ("/Cargo.toml -v -p " ++
        (qk ++ " --all-features --release-type minor"))) := fun q qk => rfl
  rw [hshape, hshape] at h
  have h2 := strCancel _ _ _ h
  have hd0 := congrArg String.data h2
  rw [String.data_append, String.data_append, String.data_append,
    String.data_append, String.data_append, String.data_append] at hd0
  have hd : p.data ++ '/' :: (("Cargo.toml -v -p " : String).data ++
      (pk.data ++ (" --all-features --release-type minor" : String).data)) =
      p'.data ++ '/' :: (("Cargo.toml -v -p " : String).data ++
      (pk'.data ++ (" --all-features --release-type minor" : String).data)) := hd0
  obtain ⟨hpe, hre⟩ := split_at_first '/' _ _ _ _ hd hp hp'
  refine ⟨String.ext hpe, ?_⟩
  have hk := List.append_cancel_left hre
  exact String.ext (List.append_cancel_right hk)

theorem main_filterMap (env : Env) (argv : List String)
    (hargv : argv.length = 3)
    (hrp : env.status none "git rev-parse HEAD" = 0)
    (hclean : env.status none "git diff --quiet" = 0)
    (hcur : env.status none ("git checkout " ++ SemverChecks.CURRENT_BRANCH) = 0)
    (hp : ∀ p ∈ env.listing, p ∉ SemverChecks.deny_list →
      env.status none (SemverChecks.catFileCmd p) = 0 →
      env.status (some p) "cargo pkgid" = 0 ∧
      ∃ s, SemverChecks.parse_package_id (env.out (some p) "cargo pkgid") =
        Except.ok s) :
    ((SemverChecks.main env argv true).trace).filterMap SemverChecks.semverCmdOf =
      (SemverChecks.checkedCrates env).map
        (fun q => SemverChecks.semverCheckCmd q (SemverChecks.pkgidOf env q)) := by
  have hmain := semver_main_eq env argv hargv hrp hclean hcur hp
  rw [hmain]
  show (List.filterMap SemverChecks.semverCmdOf
    ([Ev.cmd "git rev-parse HEAD", Ev.cmd "git diff --quiet",
      Ev.cmd ("git checkout " ++ SemverChecks.CURRENT_BRANCH)] ++
      listFlat (SemverChecks.crateEvs env) env.listing ++ _)) = _
  rw [List.filterMap_append, List.filterMap_append]
  have hfix : List.filterMap SemverChecks.semverCmdOf
      [Ev.cmd "git rev-parse HEAD", Ev.cmd "git diff --quiet",
       Ev.cmd ("git checkout " ++ SemverChecks.CURRENT_BRANCH)] = [] := by
    rw [List.filterMap_cons, List.filterMap_cons, List.filterMap_cons,
      semverCmdOf_cmd, semverCmdOf_cmd, semverCmdOf_cmd]
    have h1 : hasPre "cargo semver-checks" "git rev-parse HEAD" = false := by decide
    have h2 : hasPre "cargo semver-checks" "git diff --quiet" = false := by decide
    have h3 : hasPre "cargo semver-checks"
        ("git checkout " ++ SemverChecks.CURRENT_BRANCH) = false := by decide
    rw [h1, h2, h3]
    rfl
  have htail : List.filterMap SemverChecks.semverCmdOf
      (if (listFlat (SemverChecks.crateFails env) env.listing).isEmpty then []
       else [Ev.log "One or more crates failed semver checks!",
             Ev.log (strJoin "\n" (listFlat (SemverChecks.crateFails env)
               env.listing))]) = [] := by
    by_cases hfl : (listFlat (SemverChecks.crateFails env) env.listing).isEmpty = true
    · rw [if_pos hfl]
      rfl
    · rw [if_neg hfl, List.filterMap_cons, List.filterMap_cons,
        semverCmdOf_log, semverCmdOf_log]
      rfl
  rw [hfix, htail, List.nil_append, List.append_nil, filterMap_listFlat,
    listFlat_congr _ _ env.listing (fun p _ => semverCmdOf_crateEvs env p),
    listFlat_ite_single]
  rfl

/-- **C5.** In semver-checks, a crate failing the semver check never aborts
the iteration: under oracles where the preliminary git commands succeed and
`cargo pkgid` parses for every eligible crate (and crate directory names
are '/'-free and unique), every listed crate outside the deny-list whose
`Cargo.toml` exists in the base revision has its `cargo semver-checks`
command in the run's trace exactly once; deny-listed crates and crates
absent from the base are never checked; the run ends either in success or
in `exit(1)`, and it exits non-zero exactly when at least one checked
crate failed — the trace (hence the checking of every crate) being the
same in both cases. -/
theorem semver_loop_c5 (env : Env) (argv : List String)
    (hargv : argv.length = 3)
    (hrp : env.status none "git rev-parse HEAD" = 0)
    (hclean : env.status none "git diff --quiet" = 0)
    (hcur : env.status none ("git checkout " ++ SemverChecks.CURRENT_BRANCH) = 0)
    (hp : ∀ p ∈ env.listing, p ∉ SemverChecks.deny_list →
      env.status none (SemverChecks.catFileCmd p) = 0 →
      env.status (some p) "cargo pkgid" = 0 ∧
      ∃ s, SemverChecks.parse_package_id (env.out (some p) "cargo pkgid") =
        Except.ok s)
    (hchar : ∀ p ∈ env.listing, '/' ∉ p.data)
    (hnodup : env.listing.Nodup) :
    (∀ p ∈ env.listing, p ∉ SemverChecks.deny_list →
      env.status none (SemverChecks.catFileCmd p) = 0 →
      ((SemverChecks.main env argv true).trace).count
        (Ev.cmd (SemverChecks.semverCheckCmd p (SemverChecks.pkgidOf env p))) =
        1) ∧
    (∀ p ∈ env.listing, (p ∈ SemverChecks.deny_list ∨
        env.status none (SemverChecks.catFileCmd p) ≠ 0) →
      ∀ pk, Ev.cmd (SemverChecks.semverCheckCmd p pk) ∉
        (SemverChecks.main env argv true).trace) ∧
    ((SemverChecks.main env argv true).result = Outcome.exited 1 ↔
      ∃ p ∈ env.listing, p ∉ SemverChecks.deny_list ∧
        env.status none (SemverChecks.catFileCmd p) = 0 ∧
        env.status none (SemverChecks.semverCheckCmd p
          (SemverChecks.pkgidOf env p)) ≠ 0) ∧
    ((SemverChecks.main env argv true).result = Outcome.ok () ∨
      (SemverChecks.main env argv true).result = Outcome.exited 1) := by
  have hfm := main_filterMap env argv hargv hrp hclean hcur hp
  have hmain := semver_main_eq env argv hargv hrp hclean hcur hp
  have hres : (SemverChecks.main env argv true).result =
      (if (listFlat (SemverChecks.crateFails env) env.listing).isEmpty then
        Outcome.ok () else Outcome.exited 1) := by
    rw [hmain]
  have hsub : ∀ q ∈ SemverChecks.checkedCrates env, q ∈ env.listing := by
    intro q hq
    exact (List.mem_filter.mp hq).1
  have hcf : ∀ p, (SemverChecks.crateFails env p ≠ [] ↔
      (p ∉ SemverChecks.deny_list ∧
       env.status none (SemverChecks.catFileCmd p) = 0 ∧
       env.status none (SemverChecks.semverCheckCmd p
         (SemverChecks.pkgidOf env p)) ≠ 0)) := by
    intro p
    unfold SemverChecks.crateFails
    by_cases h1 : p ∈ SemverChecks.deny_list
    · simp [h1]
    · by_cases h2 : env.status none (SemverChecks.catFileCmd p) = 0
      · by_cases h3 : env.status none (SemverChecks.semverCheckCmd p
            (SemverChecks.pkgidOf env p)) = 0
        · simp [h1, h2, h3]
        · simp [h1, h2, h3]
      · simp [h1, h2]
  refine ⟨?_, ?_, ?_, ?_⟩
  · intro p hmem hdeny hcat
    rw [count_cmd_filterMap (SemverChecks.semverCheckCmd p
        (SemverChecks.pkgidOf env p))
        (hasPre_semverCheckCmd p (SemverChecks.pkgidOf env p)), hfm]
    have hpmem : p ∈ SemverChecks.checkedCrates env := by
      unfold SemverChecks.checkedCrates
      rw [List.mem_filter]
      refine ⟨hmem, ?_⟩
      simp [SemverChecks.deny_list, hcat]
    exact Eq.trans
      (count_map_inj_on
        (fun q => SemverChecks.semverCheckCmd q (SemverChecks.pkgidOf env q))
        (fun q => '/' ∉ q.data ∧ q ∈ env.listing)
        (fun a b ha hb hf => (semverCheckCmd_inj a b _ _ ha.1 hb.1 hf).1)
        (SemverChecks.checkedCrates env)
        (fun q hq => ⟨hchar q (hsub q hq), hsub q hq⟩)
        p ⟨hchar p hmem, hmem⟩)
      (List.count_eq_one_of_mem (hnodup.filter _) hpmem)
  · intro p hmem hskip pk hin
    have hpre := hasPre_semverCheckCmd p pk
    have hmem2 : SemverChecks.semverCheckCmd p pk ∈
        ((SemverChecks.main env argv true).trace).filterMap
          SemverChecks.semverCmdOf := by
      rw [List.mem_filterMap]
      refine ⟨Ev.cmd (SemverChecks.semverCheckCmd p pk), hin, ?_⟩
      rw [semverCmdOf_cmd, if_pos hpre]
    rw [hfm] at hmem2
    obtain ⟨q, hq, hfq⟩ := List.mem_map.mp hmem2
    have hq2 := hsub q hq
    have hqp := (semverCheckCmd_inj q p _ _ (hchar q hq2) (hchar p hmem) hfq).1
    subst hqp
    have hflt := (List.mem_filter.mp hq).2
    rcases hskip with hd | hs
    · exact absurd hd (by simp [SemverChecks.deny_list])
    · have hflt2 := (Bool.and_eq_true _ _).mp hflt
      have hc0 : env.status none (SemverChecks.catFileCmd q) = 0 := by
        simpa using hflt2.2
      exact hs hc0
  · rw [hres]
    by_cases hfl : (listFlat (SemverChecks.crateFails env) env.listing).isEmpty =
        true
    · rw [if_pos hfl]
      constructor
      · intro h0
        exact absurd h0 (by simp)
      · rintro ⟨p, hpmem, hrest⟩
        have hnil : listFlat (SemverChecks.crateFails env) env.listing = [] := by
          cases hl : listFlat (SemverChecks.crateFails env) env.listing with
          | nil => rfl
          | cons a l =>
            rw [hl] at hfl
            exact absurd hfl (by simp)
        have h0 := (listFlat_eq_nil_iff _ _).mp hnil p hpmem
        exact absurd h0 ((hcf p).mpr hrest)
    · rw [if_neg hfl]
      constructor
      · intro _
        by_contra hnex
        apply hfl
        have hnil : listFlat (SemverChecks.crateFails env) env.listing = [] := by
          rw [listFlat_eq_nil_iff]
          intro p hpmem
          by_contra hne2
          exact hnex ⟨p, hpmem, (hcf p).mp hne2⟩
        rw [hnil]
        rfl
      · intro _
        rfl
  · rw [hres]
    by_cases hfl : (listFlat (SemverChecks.crateFails env) env.listing).isEmpty =
        true
    · rw [if_pos hfl]
      exact Or.inl rfl
    · rw [if_neg hfl]
      exact Or.inr rfl

theorem semver_loop_c5_witness :
    (("s3" ∈ envLoop.listing) ∧ "s3" ∉ SemverChecks.deny_list ∧
      envLoop.status none (SemverChecks.catFileCmd "s3") = 0) ∧
    ((SemverChecks.main envLoop ["a", "b", "c"] true).trace).count
      (Ev.cmd (SemverChecks.semverCheckCmd "s3"
        (SemverChecks.pkgidOf envLoop "s3"))) = 1 ∧
    (SemverChecks.main envLoop ["a", "b", "c"] true).result =
      Outcome.exited 1 := by
  have h := semver_loop_c5 envLoop ["a", "b", "c"] (by decide)
    (by decide) (by decide) (by decide)
    (by
      intro p hpm hd hc
      have h0 : p ∈ (["aws-config", "s3"] : List String) := hpm
      have hp2 : p = "aws-config" ∨ p = "s3" := by simpa using h0
      rcases hp2 with h1 | h1
      · subst h1
        exact ⟨by decide, "aws-config", rfl⟩
      · subst h1
        exact ⟨by decide, "s3", rfl⟩)
    (by decide) (by decide)
  refine ⟨⟨by decide, by decide, by decide⟩, ?_, ?_⟩
  · exact h.1 "s3" (by decide) (by decide) (by decide)
  · exact (h.2.2.1).mpr ⟨"s3", by decide, by decide, by decide, by decide⟩

theorem splitEsc_cons2_pos (rest : List Char) :
    splitEsc ('\\' :: 'n' :: rest) = [] :: splitEsc rest := by
  conv_lhs => unfold splitEsc
  rw [if_pos ⟨rfl, rfl⟩]

theorem splitEsc_cons2_neg (c d : Char) (rest : List Char)
    (h : ¬ (c = '\\' ∧ d = 'n')) :
    splitEsc (c :: d :: rest) =
      (c :: (splitEsc (d :: rest)).headD []) :: (splitEsc (d :: rest)).tail := by
  conv_lhs => unfold splitEsc
  rw [if_neg h]

theorem splitEsc_append_esc (a rest : List Char) (ha : '\\' ∉ a) :
    splitEsc (a ++ '\\' :: 'n' :: rest) = a :: splitEsc rest := by
  induction a with
  | nil =>
    rw [List.nil_append, splitEsc_cons2_pos]
  | cons c a2 ih =>
    have hc : ¬ c = '\\' := fun h => ha (by rw [h]; exact List.mem_cons_self _ _)
    have ha2 : '\\' ∉ a2 := fun h => ha (List.mem_cons_of_mem c h)
    have ih2 := ih ha2
    cases a2 with
    | nil =>
      rw [List.cons_append, List.nil_append,
        splitEsc_cons2_neg c '\\' ('n' :: rest) (fun h2 => hc h2.1),
        splitEsc_cons2_pos]
      rfl
    | cons c2 a3 =>
      rw [List.cons_append] at ih2
      rw [List.cons_append, List.cons_append,
        splitEsc_cons2_neg c c2 (a3 ++ '\\' :: 'n' :: rest) (fun h2 => hc h2.1),
        ih2]
      rfl

theorem splitEsc_escJoin (pieces : List (List Char))
    (h : ∀ p ∈ pieces, '\\' ∉ p) :
    splitEsc (escJoin pieces) = pieces ++ [[]] := by
  induction pieces with
  | nil => rfl
  | cons p ps ih =>
    have he : escJoin (p :: ps) = p ++ '\\' :: 'n' :: escJoin ps := rfl
    rw [he, splitEsc_append_esc p _ (h p (List.mem_cons_self p ps)),
      ih (fun q hq => h q (List.mem_cons_of_mem p hq))]
    rfl

theorem not_mem_str_append (c : Char) (x y : String) (hx : c ∉ x.data)
    (hy : c ∉ y.data) : c ∉ (x ++ y).data := by
  rw [String.data_append]
  intro hmem
  rcases List.mem_append.mp hmem with h | h
  · exact hx h
  · exact hy h

theorem no_esc_mdv (env : Env) (path b h suf : String) (w : Bool)
    (hb : '\\' ∉ b.data) (hh : '\\' ∉ h.data) (hs : '\\' ∉ suf.data) :
    '\\' ∉ (pyStrOpt (make_diff_value env path b h suf w)).data ∧
    ∀ s, make_diff_value env path b h suf w = some s → '\\' ∉ s.data := by
  unfold make_diff_value
  by_cases hq : env.status none (quietDiffCmd path w) = 0
  · rw [if_pos hq]
    exact ⟨by decide, fun s hs2 => absurd hs2 (by simp)⟩
  · rw [if_neg hq]
    have n1 : '\\' ∉ (b ++ "/").data := not_mem_str_append _ _ _ hb (by decide)
    have n2 : '\\' ∉ (b ++ "/" ++ h).data := not_mem_str_append _ _ _ n1 hh
    have n3 : '\\' ∉ (b ++ "/" ++ h ++ "/").data :=
      not_mem_str_append _ _ _ n2 (by decide)
    have n4 : '\\' ∉ (b ++ "/" ++ h ++ "/" ++ suf).data :=
      not_mem_str_append _ _ _ n3 hs
    have n5 : '\\' ∉ (b ++ "/" ++ h ++ "/" ++ suf ++ "/index.html").data :=
      not_mem_str_append _ _ _ n4 (by decide)
    refine ⟨n5, fun s hs2 => ?_⟩
    exact (Option.some.inj hs2) ▸ n5

theorem no_esc_diff_link (dt edt al : String) (dl alo : Option String)
    (hdt : '\\' ∉ dt.data) (hedt : '\\' ∉ edt.data) (hal : '\\' ∉ al.data)
    (hdl : ∀ s, dl = some s → '\\' ∉ s.data)
    (halo : '\\' ∉ (pyStrOpt alo).data) :
    '\\' ∉ (diff_link dt edt dl al alo).data := by
  unfold diff_link
  cases dl with
  | none => exact hedt
  | some loc =>
    have hloc := hdl loc rfl
    have m1 : '\\' ∉ ("[" ++ dt).data := not_mem_str_append _ _ _ (by decide) hdt
    have m2 := not_mem_str_append '\\' ("[" ++ dt) "](" m1 (by decide)
    have m3 := not_mem_str_append '\\' _ CDN_URL m2 (by decide)
    have m4 := not_mem_str_append '\\' _ "/codegen-diff/" m3 (by decide)
    have m5 := not_mem_str_append '\\' _ loc m4 hloc
    have m6 := not_mem_str_append '\\' _ ") ([" m5 (by decide)
    have m7 := not_mem_str_append '\\' _ al m6 hal
    have m8 := not_mem_str_append '\\' _ "](" m7 (by decide)
    have m9 := not_mem_str_append '\\' _ CDN_URL m8 (by decide)
    have m10 := not_mem_str_append '\\' _ "/codegen-diff/" m9 (by decide)
    have m11 := not_mem_str_append '\\' _ (pyStrOpt alo) m10 halo
    have m12 := not_mem_str_append '\\' _ "))" m11 (by decide)
    exact m12

theorem reportMessage_data (v1 v2 v3 v4 v5 v6 v7 v8 v9 v10 : Option String) :
    (reportMessage v1 v2 v3 v4 v5 v6 v7 v8 v9 v10).data =
      escJoin ["A new generated diff is ready to view.".data,
        ("- " ++ diff_link "AWS SDK" "No codegen difference in the AWS SDK" v1
          "ignoring whitespace" v2).data,
        ("- " ++ diff_link "Client Test" "No codegen difference in the Client Test"
          v3 "ignoring whitespace" v4).data,
        ("- " ++ diff_link "Server Test" "No codegen difference in the Server Test"
          v5 "ignoring whitespace" v6).data,
        ("- " ++ diff_link "Server Test Python"
          "No codegen difference in the Server Test Python" v7
          "ignoring whitespace" v8).data,
        ("- " ++ diff_link "Server Test Typescript"
          "No codegen difference in the Server Test Typescript" v9
          "ignoring whitespace" v10).data] := by
  have hH : ("A new generated diff is ready to view.\\n" : String).data =
      "A new generated diff is ready to view.".data ++ '\\' :: 'n' :: [] := by
    decide
  have hE : ("\\n" : String).data = ['\\', 'n'] := by decide
  unfold reportMessage escJoin
  simp [String.data_append, hH, hE, List.append_assoc]

theorem bind_result_ok {α β : Type} (r : Res α) (f : α → Res β) (v : β)
    (h : (Res.bind r f).result = Outcome.ok v) :
    ∃ a, r.result = Outcome.ok a ∧ (f a).result = Outcome.ok v := by
  unfold Res.bind at h
  cases hres : r.result with
  | ok a =>
    rw [hres] at h
    exact ⟨a, rfl, h⟩
  | exited c =>
    rw [hres] at h
    exact absurd h (by simp)
  | raised m =>
    rw [hres] at h
    exact absurd h (by simp)

theorem bind_ok_eq {α β : Type} (r : Res α) (f : α → Res β) (a : α)
    (h : r.result = Outcome.ok a) :
    Res.bind r f = ⟨r.trace ++ (f a).trace, (f a).result⟩ := by
  unfold Res.bind
  rw [h]

theorem bind_ok_mem {α β : Type} (r : Res α) (f : α → Res β) (a : α) (e : Ev)
    (hr : r.result = Outcome.ok a) (he : e ∈ (f a).trace) :
    e ∈ (Res.bind r f).trace := by
  rw [bind_ok_eq r f a hr]
  simp [he]

theorem make_diffs_result_ok (env : Env) (b h msg : String)
    (hok : (make_diffs env b h).result = Outcome.ok msg) :
    msg = reportMessage
      (make_diff_value env (OUTPUT_PATH ++ "/aws-sdk") b h "aws-sdk" true)
      (make_diff_value env (OUTPUT_PATH ++ "/aws-sdk") b h
        "aws-sdk-ignore-whitespace" false)
      (make_diff_value env (OUTPUT_PATH ++ "/codegen-client-test") b h
        "client-test" true)
      (make_diff_value env (OUTPUT_PATH ++ "/codegen-client-test") b h
        "client-test-ignore-whitespace" false)
      (make_diff_value env (OUTPUT_PATH ++ "/codegen-server-test") b h
        "server-test" true)
      (make_diff_value env (OUTPUT_PATH ++ "/codegen-server-test") b h
        "server-test-ignore-whitespace" false)
      (make_diff_value env (OUTPUT_PATH ++ "/codegen-server-test-python") b h
        "server-test-python" true)
      (make_diff_value env (OUTPUT_PATH ++ "/codegen-server-test-python") b h
        "server-test-python-ignore-whitespace" false)
      (make_diff_value env (OUTPUT_PATH ++ "/codegen-server-test-typescript") b h
        "server-test-typescript" true)
      (make_diff_value env (OUTPUT_PATH ++ "/codegen-server-test-typescript") b h
        "server-test-typescript-ignore-whitespace" false) := by
  unfold make_diffs at hok
  obtain ⟨a1, h1, hok⟩ := bind_result_ok _ _ _ hok
  obtain ⟨a2, h2, hok⟩ := bind_result_ok _ _ _ hok
  obtain ⟨a3, h3, hok⟩ := bind_result_ok _ _ _ hok
  obtain ⟨a4, h4, hok⟩ := bind_result_ok _ _ _ hok
  obtain ⟨a5, h5, hok⟩ := bind_result_ok _ _ _ hok
  obtain ⟨a6, h6, hok⟩ := bind_result_ok _ _ _ hok
  obtain ⟨a7, h7, hok⟩ := bind_result_ok _ _ _ hok
  obtain ⟨a8, h8, hok⟩ := bind_result_ok _ _ _ hok
  obtain ⟨a9, h9, hok⟩ := bind_result_ok _ _ _ hok
  obtain ⟨a10, h10, hok⟩ := bind_result_ok _ _ _ hok
  have hmsg := Outcome.ok.inj hok
  rw [← hmsg,
    make_diff_result_ok env "AWS SDK" (OUTPUT_PATH ++ "/aws-sdk") b h
      "aws-sdk" true a1 h1,
    make_diff_result_ok env "AWS SDK" (OUTPUT_PATH ++ "/aws-sdk") b h
      "aws-sdk-ignore-whitespace" false a2 h2,
    make_diff_result_ok env "Client Test" (OUTPUT_PATH ++ "/codegen-client-test")
      b h "client-test" true a3 h3,
    make_diff_result_ok env "Client Test" (OUTPUT_PATH ++ "/codegen-client-test")
      b h "client-test-ignore-whitespace" false a4 h4,
    make_diff_result_ok env "Server Test" (OUTPUT_PATH ++ "/codegen-server-test")
      b h "server-test" true a5 h5,
    make_diff_result_ok env "Server Test" (OUTPUT_PATH ++ "/codegen-server-test")
      b h "server-test-ignore-whitespace" false a6 h6,
    make_diff_result_ok env "Server Test Python"
      (OUTPUT_PATH ++ "/codegen-server-test-python") b h
      "server-test-python" true a7 h7,
    make_diff_result_ok env "Server Test Python"
      (OUTPUT_PATH ++ "/codegen-server-test-python") b h
      "server-test-python-ignore-whitespace" false a8 h8,
    make_diff_result_ok env "Server Test Typescript"
      (OUTPUT_PATH ++ "/codegen-server-test-typescript") b h
      "server-test-typescript" true a9 h9,
    make_diff_result_ok env "Server Test Typescript"
      (OUTPUT_PATH ++ "/codegen-server-test-typescript") b h
      "server-test-typescript-ignore-whitespace" false a10 h10]

theorem main_writes_report (env : Env) (argv : List String)
    (hok : (CodegenDiffRevisions.main env argv).result = Outcome.ok ()) :
    ∃ m, (make_diffs env (argv.getD 2 "")
        (env.out none "git rev-parse HEAD")).result = Outcome.ok m ∧
      Ev.writeFile (OUTPUT_PATH ++ "/bot-message") m ∈
        (CodegenDiffRevisions.main env argv).trace := by
  unfold CodegenDiffRevisions.main at hok ⊢
  by_cases hargv : argv.length ≠ 3
  · rw [if_pos hargv] at hok
    exact absurd hok (by simp)
  · rw [if_neg hargv] at hok
    rw [if_neg hargv]
    obtain ⟨r, hA, hok⟩ := bind_result_ok _ _ _ hok
    have hr : r = (0, env.out none "git rev-parse HEAD",
        env.err none "git rev-parse HEAD") := by
      unfold getCmdOutput at hA
      by_cases hs : env.status none "git rev-parse HEAD" = 0
      · rw [if_pos hs] at hA
        exact (Outcome.ok.inj hA).symm
      · rw [if_neg hs] at hA
        exact absurd hA (by simp)
    obtain ⟨dirty, hB, hok⟩ := bind_result_ok _ _ _ hok
    by_cases hd : dirty ≠ 0
    · rw [if_pos hd] at hok
      exact absurd hok (by simp)
    · rw [if_neg hd] at hok
      obtain ⟨u1, hC, hok⟩ := bind_result_ok _ _ _ hok
      obtain ⟨u2, hD, hok⟩ := bind_result_ok _ _ _ hok
      obtain ⟨u3, hE, hok⟩ := bind_result_ok _ _ _ hok
      obtain ⟨u4, hF, hok⟩ := bind_result_ok _ _ _ hok
      obtain ⟨m, hG, hok⟩ := bind_result_ok _ _ _ hok
      refine ⟨m, ?_, ?_⟩
      · rw [hr] at hG
        exact hG
      · apply bind_ok_mem _ _ r _ hA
        apply bind_ok_mem _ _ dirty _ hB
        rw [if_neg hd]
        apply bind_ok_mem _ _ u1 _ hC
        apply bind_ok_mem _ _ u2 _ hD
        apply bind_ok_mem _ _ u3 _ hE
        apply bind_ok_mem _ _ u4 _ hF
        apply bind_ok_mem _ _ m _ hG
        rw [List.singleton_append, runSeq_writeFile]
        exact List.mem_cons_self _ _

/-- **C1 (counterexample).** Under an oracle where every category has a
diff, the message `make_diffs` returns is not the claimed one in which each
bullet's primary link is the whitespace-insensitive diff result with the
whitespace-sensitive result as the alternate: the code nests them the other
way around. -/
theorem report_message_c1_counterexample :
    (make_diffs envAllDiffs "b" "h").result ≠
      Outcome.ok (claimC1Message envAllDiffs "b" "h") := by
  decide

/-- **C1 (amended).** Whenever `make_diffs` returns a message, that message
is the report whose five bullets carry the whitespace-sensitive diff result
as the primary link and the whitespace-insensitive result as the nested
"ignoring whitespace" alternate; split at the literal backslash-n escape
sequences (for backslash-free revision ids) it consists of exactly the
header line, one bullet line per tracked category in source order, and a
trailing empty piece; and whenever the orchestrator `main` completes, the
message `make_diffs` produced for (argv base sha, rev-parse head sha) is
written verbatim to `tmp-codegen-diff/bot-message`. -/
theorem report_message_c1_amended (env : Env) (b h msg : String)
    (hok : (make_diffs env b h).result = Outcome.ok msg)
    (hb : '\\' ∉ b.data) (hh : '\\' ∉ h.data) :
    (msg = reportMessage
      (make_diff_value env (OUTPUT_PATH ++ "/aws-sdk") b h "aws-sdk" true)
      (make_diff_value env (OUTPUT_PATH ++ "/aws-sdk") b h
        "aws-sdk-ignore-whitespace" false)
      (make_diff_value env (OUTPUT_PATH ++ "/codegen-client-test") b h
        "client-test" true)
      (make_diff_value env (OUTPUT_PATH ++ "/codegen-client-test") b h
        "client-test-ignore-whitespace" false)
      (make_diff_value env (OUTPUT_PATH ++ "/codegen-server-test") b h
        "server-test" true)
      (make_diff_value env (OUTPUT_PATH ++ "/codegen-server-test") b h
        "server-test-ignore-whitespace" false)
      (make_diff_value env (OUTPUT_PATH ++ "/codegen-server-test-python") b h
        "server-test-python" true)
      (make_diff_value env (OUTPUT_PATH ++ "/codegen-server-test-python") b h
        "server-test-python-ignore-whitespace" false)
      (make_diff_value env (OUTPUT_PATH ++ "/codegen-server-test-typescript") b h
        "server-test-typescript" true)
      (make_diff_value env (OUTPUT_PATH ++ "/codegen-server-test-typescript") b h
        "server-test-typescript-ignore-whitespace" false)) ∧
    splitEsc msg.data =
      ["A new generated diff is ready to view.".data,
       ("- " ++ diff_link "AWS SDK" "No codegen difference in the AWS SDK"
         (make_diff_value env (OUTPUT_PATH ++ "/aws-sdk") b h "aws-sdk" true)
         "ignoring whitespace"
         (make_diff_value env (OUTPUT_PATH ++ "/aws-sdk") b h
           "aws-sdk-ignore-whitespace" false)).data,
       ("- " ++ diff_link "Client Test" "No codegen difference in the Client Test"
         (make_diff_value env (OUTPUT_PATH ++ "/codegen-client-test") b h
           "client-test" true)
         "ignoring whitespace"
         (make_diff_value env (OUTPUT_PATH ++ "/codegen-client-test") b h
           "client-test-ignore-whitespace" false)).data,
       ("- " ++ diff_link "Server Test" "No codegen difference in the Server Test"
         (make_diff_value env (OUTPUT_PATH ++ "/codegen-server-test") b h
           "server-test" true)
         "ignoring whitespace"
         (make_diff_value env (OUTPUT_PATH ++ "/codegen-server-test") b h
           "server-test-ignore-whitespace" false)).data,
       ("- " ++ diff_link "Server Test Python"
         "No codegen difference in the Server Test Python"
         (make_diff_value env (OUTPUT_PATH ++ "/codegen-server-test-python") b h
           "server-test-python" true)
         "ignoring whitespace"
         (make_diff_value env (OUTPUT_PATH ++ "/codegen-server-test-python") b h
           "server-test-python-ignore-whitespace" false)).data,
       ("- " ++ diff_link "Server Test Typescript"
         "No codegen difference in the Server Test Typescript"
         (make_diff_value env (OUTPUT_PATH ++ "/codegen-server-test-typescript") b h
           "server-test-typescript" true)
         "ignoring whitespace"
         (make_diff_value env (OUTPUT_PATH ++ "/codegen-server-test-typescript") b h
           "server-test-typescript-ignore-whitespace" false)).data,
       []] ∧
    (∀ argv, (CodegenDiffRevisions.main env argv).result = Outcome.ok () →
      ∃ m, (make_diffs env (argv.getD 2 "")
          (env.out none "git rev-parse HEAD")).result = Outcome.ok m ∧
        Ev.writeFile (OUTPUT_PATH ++ "/bot-message") m ∈
          (CodegenDiffRevisions.main env argv).trace) := by
  have hmsg := make_diffs_result_ok env b h msg hok
  refine ⟨hmsg, ?_, fun argv hmain => main_writes_report env argv hmain⟩
  rw [hmsg, reportMessage_data, splitEsc_escJoin]
  · rfl
  · intro p hp
    have hp2 := hp
    simp only [List.mem_cons, List.not_mem_nil, or_false] at hp2
    have hbullet : ∀ (dt edt : String) (path sufWs sufNows : String),
        '\\' ∉ dt.data → '\\' ∉ edt.data →
        '\\' ∉ sufWs.data → '\\' ∉ sufNows.data →
        '\\' ∉ ("- " ++ diff_link dt edt
          (make_diff_value env path b h sufWs true) "ignoring whitespace"
          (make_diff_value env path b h sufNows false)).data := by
      intro dt edt path sufWs sufNows hdt hedt hsw hsn
      refine not_mem_str_append _ _ _ (by decide) ?_
      exact no_esc_diff_link dt edt "ignoring whitespace"
        (make_diff_value env path b h sufWs true)
        (make_diff_value env path b h sufNows false)
        hdt hedt (by decide)
        (no_esc_mdv env path b h sufWs true hb hh hsw).2
        (no_esc_mdv env path b h sufNows false hb hh hsn).1
    rcases hp2 with h1 | h1 | h1 | h1 | h1 | h1 <;> rw [h1]
    · decide
    · exact hbullet "AWS SDK" "No codegen difference in the AWS SDK" _ _ _
        (by decide) (by decide) (by decide) (by decide)
    · exact hbullet "Client Test" "No codegen difference in the Client Test" _ _ _
        (by decide) (by decide) (by decide) (by decide)
    · exact hbullet "Server Test" "No codegen difference in the Server Test" _ _ _
        (by decide) (by decide) (by decide) (by decide)
    · exact hbullet "Server Test Python"
        "No codegen difference in the Server Test Python" _ _ _
        (by decide) (by decide) (by decide) (by decide)
    · exact hbullet "Server Test Typescript"
        "No codegen difference in the Server Test Typescript" _ _ _
        (by decide) (by decide) (by decide) (by decide)

theorem report_message_c1_amended_witness :
    ((make_diffs envAllDiffs "b" "h").result = Outcome.ok (reportMessage
      (some "b/h/aws-sdk/index.html")
      (some "b/h/aws-sdk-ignore-whitespace/index.html")
      (some "b/h/client-test/index.html")
      (some "b/h/client-test-ignore-whitespace/index.html")
      (some "b/h/server-test/index.html")
      (some "b/h/server-test-ignore-whitespace/index.html")
      (some "b/h/server-test-python/index.html")
      (some "b/h/server-test-python-ignore-whitespace/index.html")
      (some "b/h/server-test-typescript/index.html")
      (some "b/h/server-test-typescript-ignore-whitespace/index.html"))) ∧
    reportMessage
      (some "b/h/aws-sdk/index.html")
      (some "b/h/aws-sdk-ignore-whitespace/index.html")
      (some "b/h/client-test/index.html")
      (some "b/h/client-test-ignore-whitespace/index.html")
      (some "b/h/server-test/index.html")
      (some "b/h/server-test-ignore-whitespace/index.html")
      (some "b/h/server-test-python/index.html")
      (some "b/h/server-test-python-ignore-whitespace/index.html")
      (some "b/h/server-test-typescript/index.html")
      (some "b/h/server-test-typescript-ignore-whitespace/index.html") =
    reportMessage
      (make_diff_value envAllDiffs (OUTPUT_PATH ++ "/aws-sdk") "b" "h"
        "aws-sdk" true)
      (make_diff_value envAllDiffs (OUTPUT_PATH ++ "/aws-sdk") "b" "h"
        "aws-sdk-ignore-whitespace" false)
      (make_diff_value envAllDiffs (OUTPUT_PATH ++ "/codegen-client-test") "b" "h"
        "client-test" true)
      (make_diff_value envAllDiffs (OUTPUT_PATH ++ "/codegen-client-test") "b" "h"
        "client-test-ignore-whitespace" false)
      (make_diff_value envAllDiffs (OUTPUT_PATH ++ "/codegen-server-test") "b" "h"
        "server-test" true)
      (make_diff_value envAllDiffs (OUTPUT_PATH ++ "/codegen-server-test") "b" "h"
        "server-test-ignore-whitespace" false)
      (make_diff_value envAllDiffs (OUTPUT_PATH ++ "/codegen-server-test-python")
        "b" "h" "server-test-python" true)
      (make_diff_value envAllDiffs (OUTPUT_PATH ++ "/codegen-server-test-python")
        "b" "h" "server-test-python-ignore-whitespace" false)
      (make_diff_value envAllDiffs
        (OUTPUT_PATH ++ "/codegen-server-test-typescript") "b" "h"
        "server-test-typescript" true)
      (make_diff_value envAllDiffs
        (OUTPUT_PATH ++ "/codegen-server-test-typescript") "b" "h"
        "server-test-typescript-ignore-whitespace" false) :=
  ⟨rfl,
   (report_message_c1_amended envAllDiffs "b" "h" _ rfl (by decide)
     (by decide)).1⟩

/-- Witness for C8's conditional part: with an oracle under which every
command succeeds, the run's trace is exactly the command sequence (ending
with the add and commit). -/
theorem generate_and_commit_c8_witness :
    (generate_and_commit_generated_code envAllOk "r" none).trace =
      (gcCmds "r" (pyOrList none defaultTargets)).map Ev.cmd ∧
    (generate_and_commit_generated_code envAllOk "r" none).result = Outcome.ok () :=
  (generate_and_commit_c8 envAllOk "r" none).2.2.2.2.2 (fun c _ => rfl)

end CodegenDiff
